import Mathlib

/-!
Shallow embedding of the multi-agent execution service core
(rust/agent-core: security.rs, enforcement.rs, fsm.rs, execution.rs)
together with theorems settling the frozen claims about it.

Modelling conventions:
* Rust `String`/`&str` become Lean `String`; substring scans run over `List Char`.
* `HashMap` becomes an association list with lookup / replace-insert / remove
  helpers whose semantics match the map operations actually used.
* `Instant` / `Duration` become `Nat` tick counts; the rate limiter's fractional
  seconds become `Rat`.  `f64` risk scores are integer-valued in the source
  (contributions 10/25/50/100, 30, 20, 50, exactly representable), so they are
  modelled as `Nat`.
* Fallible Rust functions return `Except`; functions whose only effect is
  logging are pure.
* Spawned (fire-and-forget) circuit-breaker mutations are modelled as applied
  at the spawn point, i.e. the interleaving in which the spawned task runs
  immediately.
-/

namespace MultiAgent

/-! ### Character-list utilities mirroring the `str` operations used by the source -/

/-- Whitespace test used for the regex class backslash-s and for `str::trim`
(ASCII subset; the source strings are ASCII). -/
def isWs (c : Char) : Bool :=
  c == ' ' || c == '\t' || c == '\n' || c == '\r' || c == Char.ofNat 11 || c == Char.ofNat 12

/-- `leadsWith needle hay` : `needle` is a prefix of `hay` (Rust `str::starts_with`). -/
def leadsWith : List Char → List Char → Bool
  | [], _ => true
  | _ :: _, [] => false
  | a :: as, b :: bs => a == b && leadsWith as bs

/-- `containsSub needle hay` : `needle` occurs as a contiguous substring of `hay`
(Rust `str::contains`). -/
def containsSub (needle : List Char) : List Char → Bool
  | [] => leadsWith needle []
  | c :: t => leadsWith needle (c :: t) || containsSub needle t

/-- After the literal name, the regexes `eval\s*\(` etc. accept zero or more
whitespace characters followed by an opening parenthesis. -/
def wsThenParen : List Char → Bool
  | [] => false
  | c :: t => if c == '(' then true else if isWs c then wsThenParen t else false

/-- `matchesCall name hay` : some occurrence of `name` in `hay` is followed by
optional whitespace and `(` — the shape of the `name\s*\(` regexes. -/
def matchesCall (name : List Char) : List Char → Bool
  | [] => false
  | c :: t =>
      (leadsWith name (c :: t) && wsThenParen (List.drop name.length (c :: t)))
      || matchesCall name t

/-- Strip a single trailing carriage return, as Rust `str::lines` does. -/
def stripCr (l : List Char) : List Char :=
  match l.reverse with
  | r :: rs => if r == '\r' then rs.reverse else l
  | [] => l

/-- Split on newline characters, keeping a final (possibly empty) segment. -/
def splitOnNl : List Char → List (List Char)
  | [] => [[]]
  | c :: t =>
      if c == '\n' then [] :: splitOnNl t
      else
        match splitOnNl t with
        | [] => [[c]]
        | l :: ls => (c :: l) :: ls

/-- Rust `str::lines`: split at newlines, drop an empty final segment produced
by a trailing newline (or by the empty string), strip trailing `\r`. -/
def linesOf (s : List Char) : List (List Char) :=
  let segs := splitOnNl s
  let segs := if segs.getLast? = some [] then segs.dropLast else segs
  segs.map stripCr

/-- Rust `str::trim` (ASCII whitespace). -/
def trimChars (l : List Char) : List Char :=
  ((l.dropWhile isWs).reverse.dropWhile isWs).reverse

/-! ### Association-list maps standing in for `HashMap` -/

/-- Lookup, `HashMap::get`. -/
def lookupA {α : Type} : List (String × α) → String → Option α
  | [], _ => none
  | (k0, v) :: t, k => if k0 == k then some v else lookupA t k

/-- Remove every binding of a key, `HashMap::remove` (keys are unique in a
`HashMap`, so "no binding for the key survives" is the faithful reading). -/
def removeA {α : Type} (m : List (String × α)) (k : String) : List (String × α) :=
  m.filter (fun kv => kv.1 != k)

/-- Insert-or-replace, `HashMap::insert`. -/
def insertA {α : Type} (m : List (String × α)) (k : String) (v : α) : List (String × α) :=
  (k, v) :: removeA m k

/-- In-place update of an existing entry, `HashMap::get_mut` followed by a
mutation; absent keys are untouched. -/
def updateA {α : Type} : List (String × α) → String → (α → α) → List (String × α)
  | [], _, _ => []
  | (k0, v) :: t, k, f => if k0 == k then (k0, f v) :: t else (k0, v) :: updateA t k f

/-! ### security.rs — static code analyzer, policy engine, validation pipeline -/

/-- Security severity levels (security.rs `Severity`). -/
inductive Severity
  | Low
  | Medium
  | High
  | Critical
deriving DecidableEq

/-- `Severity::severity_str`. -/
def Severity.severity_str : Severity → String
  | .Low => "LOW"
  | .Medium => "MEDIUM"
  | .High => "HIGH"
  | .Critical => "CRITICAL"

/-- The per-severity score assigned in `CodeAnalyzer::analyze_code` (the f64
values 10.0 / 25.0 / 50.0 / 100.0 are integers). -/
def severityScore : Severity → Nat
  | .Low => 10
  | .Medium => 25
  | .High => 50
  | .Critical => 100

/-- A dangerous-code pattern: the compiled regex is embedded as the Boolean
matcher it denotes, applied as `pattern.is_match(code)` in the source
(security.rs `DangerousPattern`). -/
structure DangerousPattern where
  pattern : String → Bool
  severity : Severity
  description : String

/-- The six patterns installed by `CodeAnalyzer::new`. -/
def dangerous_patterns : List DangerousPattern :=
  [ { pattern := fun s => matchesCall "eval".toList s.toList,
      severity := .Critical, description := "Use of eval() function" },
    { pattern := fun s => matchesCall "exec".toList s.toList,
      severity := .Critical, description := "Use of exec() function" },
    { pattern := fun s => matchesCall "__import__".toList s.toList,
      severity := .High, description := "Dynamic import usage" },
    { pattern := fun s => containsSub "subprocess.".toList s.toList,
      severity := .High, description := "Subprocess execution" },
    { pattern := fun s => containsSub "os.system".toList s.toList,
      severity := .Critical, description := "System command execution" },
    { pattern := fun s => containsSub "pickle.loads".toList s.toList,
      severity := .High, description := "Unsafe deserialization" } ]

/-- `CodeAnalyzer::new` whitelist. -/
def allowed_imports : List String :=
  ["json", "math", "datetime", "re", "collections", "itertools", "functools"]

/-- `CodeAnalyzer::new` blocked functions. -/
def blocked_functions : List String :=
  ["eval", "exec", "compile", "__import__"]

/-- `CodeAnalyzer::is_import_allowed`: the trimmed import line must contain one
of the allowed module names as a substring. -/
def is_import_allowed (import_line : List Char) : Bool :=
  allowed_imports.any (fun a => containsSub a.toList import_line)

/-- Result of `CodeAnalyzer::analyze_code`. -/
structure CodeAnalysisResult where
  violations : List String
  risk_score : Nat
  recommendations : List String

/-- The import lines of the code: every line whose trim starts with
`import ` or `from `. -/
def importLinesOf (code : String) : List (List Char) :=
  ((linesOf code.toList).map trimChars).filter
    (fun t => leadsWith "import ".toList t || leadsWith "from ".toList t)

/-- `CodeAnalyzer::analyze_code`: three scans, each appending one violation and
one positive score contribution per hit, in source order (patterns, then
blocked functions, then import lines). -/
def analyze_code (code : String) : CodeAnalysisResult :=
  let hits := dangerous_patterns.filter (fun p => p.pattern code)
  let v1 := hits.map (fun p => p.severity.severity_str ++ ": " ++ p.description)
  let s1 := (hits.map (fun p => severityScore p.severity)).sum
  let r1 := hits.map (fun p => "Remove or replace: " ++ p.description)
  let fhits := blocked_functions.filter (fun f => containsSub f.toList code.toList)
  let v2 := fhits.map (fun f => "Blocked function usage: " ++ f)
  let s2 := 30 * fhits.length
  let bad := (importLinesOf code).filter (fun t => !(is_import_allowed t))
  let v3 := bad.map (fun t => "Disallowed import: " ++ String.mk t)
  let s3 := 20 * bad.length
  { violations := v1 ++ v2 ++ v3, risk_score := s1 + s2 + s3, recommendations := r1 }

/-- Result of `PolicyEngine::evaluate_code_policy`. -/
structure PolicyResult where
  allowed : Bool
  reason : String

/-- A single-quote character, written by code point to keep the source plain. -/
def squote : Char := Char.ofNat 39

/-- The needle consisting of a single-quoted `w` (file write mode). -/
def quotedW : List Char := [squote, 'w', squote]

/-- The needle consisting of a single-quoted `a` (file append mode). -/
def quotedA : List Char := [squote, 'a', squote]

/-- `PolicyEngine::evaluate_code_policy`: three substring rules checked in
order; the user id is accepted but unused by the source. -/
def evaluate_code_policy (code : String) (_user_id : String) : PolicyResult :=
  let cs := code.toList
  if containsSub "import os".toList cs && containsSub "system".toList cs then
    { allowed := false, reason := "System command execution not allowed" }
  else if containsSub "open(".toList cs && (containsSub quotedW cs || containsSub quotedA cs) then
    { allowed := false, reason := "File write access not allowed" }
  else if containsSub "requests.".toList cs || containsSub "urllib".toList cs
      || containsSub "socket".toList cs then
    { allowed := false, reason := "Direct network access not allowed" }
  else
    { allowed := true, reason := "Code passed policy evaluation" }

/-- Result of `SecurityManager::validate_code` (security.rs
`SecurityValidationResult`). -/
structure SecurityValidationResult where
  is_safe : Bool
  violations : List String
  risk_score : Nat
  recommendations : List String
deriving DecidableEq

/-- Steps 1-3 of `SecurityManager::validate_code`: analysis, policy
evaluation, and the safety decision `violations.is_empty() && risk_score < 70`. -/
def validation_core (code user_id : String) : SecurityValidationResult :=
  let analysis := analyze_code code
  let policy := evaluate_code_policy code user_id
  let violations :=
    if policy.allowed then analysis.violations
    else analysis.violations ++ ["Policy violation: " ++ policy.reason]
  let risk_score := if policy.allowed then analysis.risk_score else analysis.risk_score + 50
  { is_safe := violations.isEmpty && risk_score < 70,
    violations := violations,
    risk_score := risk_score,
    recommendations := analysis.recommendations }

/-- `SecurityManager::validate_code`, including step 4: the audit write.
`audit_write` is the outcome of `AuditLogger::write_audit_event` (an external
filesystem effect); `audit_enabled` is `AuditLogger.enabled`.  The source
applies the question-mark operator to `log_validation_event`, so an enabled
logger whose write fails makes `validate_code` itself return the error. -/
def validate_code (audit_enabled : Bool) (audit_write : Except String Unit)
    (code user_id : String) : Except String SecurityValidationResult :=
  let r := validation_core code user_id
  if audit_enabled then
    match audit_write with
    | .error e => .error e
    | .ok _ => .ok r
  else .ok r

/-! ### enforcement.rs — timeout, tokens, rate limiter, circuit breaker, resources -/

/-- Task priority levels. -/
inductive TaskPriority
  | Low
  | Normal
  | High
  | Critical
deriving DecidableEq

/-- Resource vector of a request (`ResourceRequirements`); `cpu_cores` is an
f32 in the source, modelled as an exact rational. -/
structure ResourceRequirements where
  memory_mb : Nat
  cpu_cores : Rat
  network_bandwidth_mbps : Nat
  storage_mb : Nat
deriving DecidableEq

/-- Enforcement request (`ExecuteTaskRequest`); durations in nanosecond ticks. -/
structure ExecuteTaskRequest where
  user_id : String
  tenant_id : String
  session_id : String
  task_id : String
  estimated_duration : Nat
  estimated_tokens : Nat
  priority : TaskPriority
  resource_requirements : ResourceRequirements

/-- Enforcement errors (`EnforcementError`); the resource variant carries the
formatted resource description, as in the source. -/
inductive EnforcementError
  | TimeoutExceeded (duration : Nat)
  | TokenLimitExceeded (current : Nat) (limit : Nat)
  | RateLimitExceeded (key : String)
  | CircuitBreakerOpen (key : String)
  | ResourceLimitExceeded (resource : String)
  | PolicyViolation (msg : String)
deriving DecidableEq

/-- Configuration structures (config.rs), restricted to the fields the
enforcement path reads. -/
structure TimeoutConfig where
  max_duration : Nat
  warning_threshold : Nat

/-- Rate-limit knobs; `window_size` is stored but unused by the algorithm. -/
structure RateLimitConfig where
  requests_per_second : Nat
  burst_size : Nat
  window_size : Nat

/-- Circuit-breaker knobs; `timeout` in the same ticks as `now`. -/
structure CircuitBreakerConfig where
  failure_threshold : Nat
  success_threshold : Nat
  timeout : Nat

/-- Token-validator knobs; the cost is only used for a warning log. -/
structure TokenValidatorConfig where
  max_tokens : Nat
  cost_per_token : Rat

/-- All enforcement configuration. -/
structure EnforcementConfig where
  timeout_config : TimeoutConfig
  rate_limit_config : RateLimitConfig
  circuit_breaker_config : CircuitBreakerConfig
  token_validator_config : TokenValidatorConfig

/-- The thiserror display strings of `EnforcementError` (the `Duration` debug
rendering is reduced to its tick count). -/
def EnforcementError.display : EnforcementError → String
  | .TimeoutExceeded d => "Timeout exceeded: " ++ toString d
  | .TokenLimitExceeded current limit =>
      "Token limit exceeded: " ++ toString current ++ " > " ++ toString limit
  | .RateLimitExceeded key => "Rate limit exceeded for key: " ++ key
  | .CircuitBreakerOpen key => "Circuit breaker open for key: " ++ key
  | .ResourceLimitExceeded resource => "Resource limit exceeded: " ++ resource
  | .PolicyViolation msg => "Policy violation: " ++ msg

/-- `TimeoutEnforcer::check_timeout`: strict threshold, warning log elided. -/
def check_timeout (cfg : TimeoutConfig) (estimated_duration : Nat) :
    Except EnforcementError Unit :=
  if estimated_duration > cfg.max_duration then
    .error (.TimeoutExceeded estimated_duration)
  else .ok ()

/-- `TokenValidator::validate_tokens`: strict threshold, cost warning elided. -/
def validate_tokens (cfg : TokenValidatorConfig) (estimated_tokens : Nat) :
    Except EnforcementError Unit :=
  if estimated_tokens > cfg.max_tokens then
    .error (.TokenLimitExceeded estimated_tokens cfg.max_tokens)
  else .ok ()

/-- A per-key token bucket (`TokenBucket`); token counts and timestamps are
rationals standing for the source's f64 seconds. -/
structure TokenBucket where
  tokens : Rat
  last_refill : Rat
  capacity : Rat
  refill_rate : Rat
deriving DecidableEq

/-- `RateLimiter::check_rate_limit` at time `now` (seconds): look up or create
the bucket, refill `min(capacity, tokens + elapsed * rate)`, then consume one
token or fail. Returns the updated bucket map and the outcome. -/
def check_rate_limit (cfg : RateLimitConfig) (buckets : List (String × TokenBucket))
    (key : String) (now : Rat) :
    List (String × TokenBucket) × Except EnforcementError Unit :=
  let bucket :=
    match lookupA buckets key with
    | some b => b
    | none =>
        { tokens := (cfg.burst_size : Rat), last_refill := now,
          capacity := (cfg.burst_size : Rat), refill_rate := (cfg.requests_per_second : Rat) }
  let elapsed := now - bucket.last_refill
  let refilled := min (bucket.tokens + elapsed * bucket.refill_rate) bucket.capacity
  if refilled ≥ 1 then
    (insertA buckets key { bucket with tokens := refilled - 1, last_refill := now }, .ok ())
  else
    (insertA buckets key { bucket with tokens := refilled, last_refill := now },
     .error (.RateLimitExceeded key))

/-- Circuit status (`CircuitStatus`). -/
inductive CircuitStatus
  | Closed
  | Open
  | HalfOpen
deriving DecidableEq

/-- Per-key circuit state (`CircuitState`). -/
structure CircuitState where
  state : CircuitStatus
  failure_count : Nat
  success_count : Nat
  last_failure : Option Nat
deriving DecidableEq

/-- The fresh state installed by the `or_insert_with` closures. -/
def freshCircuit : CircuitState :=
  { state := .Closed, failure_count := 0, success_count := 0, last_failure := none }

/-- `CircuitBreaker::transition_to_half_open` (the body of the spawned task):
set the status to HalfOpen and zero the success counter. -/
def transition_to_half_open (circuits : List (String × CircuitState)) (key : String) :
    List (String × CircuitState) :=
  updateA circuits key (fun c => { c with state := .HalfOpen, success_count := 0 })

/-- `CircuitBreaker::check_circuit` at time `now`: an Open circuit whose
last failure is older than the timeout flips to HalfOpen (spawned mutation,
modelled as applied) and passes; an Open circuit within the timeout (or with
no recorded failure) fails; anything else passes. -/
def check_circuit (cfg : CircuitBreakerConfig) (circuits : List (String × CircuitState))
    (key : String) (now : Nat) :
    List (String × CircuitState) × Except EnforcementError Unit :=
  match lookupA circuits key with
  | some c =>
      if c.state == .Open then
        match c.last_failure with
        | some lf =>
            if now - lf > cfg.timeout then
              (transition_to_half_open circuits key, .ok ())
            else (circuits, .error (.CircuitBreakerOpen key))
        | none => (circuits, .error (.CircuitBreakerOpen key))
      else (circuits, .ok ())
  | none => (circuits, .ok ())

/-- Body of the task spawned by `CircuitBreaker::record_failure`: bump the
failure counter, zero successes, stamp the failure time, and open the circuit
iff the counter has reached the failure threshold. -/
def record_failure (cfg : CircuitBreakerConfig) (circuits : List (String × CircuitState))
    (key : String) (now : Nat) : List (String × CircuitState) :=
  let c := (lookupA circuits key).getD freshCircuit
  let c := { c with failure_count := c.failure_count + 1, success_count := 0,
                    last_failure := some now }
  let c := if c.failure_count ≥ cfg.failure_threshold then { c with state := .Open } else c
  insertA circuits key c

/-- Body of the task spawned by `CircuitBreaker::record_success`: bump the
success counter, zero failures, and close a HalfOpen circuit once the success
threshold is reached. -/
def record_success (cfg : CircuitBreakerConfig) (circuits : List (String × CircuitState))
    (key : String) : List (String × CircuitState) :=
  let c := (lookupA circuits key).getD freshCircuit
  let c := { c with success_count := c.success_count + 1, failure_count := 0 }
  let c :=
    if c.state == .HalfOpen && c.success_count ≥ cfg.success_threshold then
      { c with state := .Closed, success_count := 0 }
    else c
  insertA circuits key c

/-- `EnforcementGateway::validate_resources`: four fixed ceilings checked in
order, each failing with the formatted resource description. -/
def validate_resources (r : ResourceRequirements) : Except EnforcementError Unit :=
  if r.memory_mb > 2048 then
    .error (.ResourceLimitExceeded ("memory: " ++ toString r.memory_mb ++ "MB > 2048MB"))
  else if r.cpu_cores > 4 then
    .error (.ResourceLimitExceeded ("cpu: " ++ toString r.cpu_cores ++ " cores > 4.0 cores"))
  else if r.network_bandwidth_mbps > 100 then
    .error (.ResourceLimitExceeded
      ("bandwidth: " ++ toString r.network_bandwidth_mbps ++ "Mbps > 100Mbps"))
  else if r.storage_mb > 1024 then
    .error (.ResourceLimitExceeded ("storage: " ++ toString r.storage_mb ++ "MB > 1024MB"))
  else .ok ()

/-- Mutable state of the gateway: the rate-limiter bucket map and the
circuit-breaker map. -/
structure EnforcementState where
  buckets : List (String × TokenBucket)
  circuits : List (String × CircuitState)

/-- `EnforcementGateway::enforce_request`: the five checks in source order with
short-circuiting; `now_s` is the rate limiter clock (seconds), `now` the
circuit-breaker clock (ticks). Returns the updated gateway state and outcome. -/
def enforce_request (cfg : EnforcementConfig) (st : EnforcementState)
    (now_s : Rat) (now : Nat) (request : ExecuteTaskRequest) :
    EnforcementState × Except EnforcementError Unit :=
  match check_timeout cfg.timeout_config request.estimated_duration with
  | .error e => (st, .error e)
  | .ok _ =>
  match validate_tokens cfg.token_validator_config request.estimated_tokens with
  | .error e => (st, .error e)
  | .ok _ =>
  let rate_limit_key := "user:" ++ request.user_id
  let (buckets, rres) := check_rate_limit cfg.rate_limit_config st.buckets rate_limit_key now_s
  let st := { st with buckets := buckets }
  match rres with
  | .error e => (st, .error e)
  | .ok _ =>
  let circuit_key := "tenant:" ++ request.tenant_id
  let (circuits, cres) := check_circuit cfg.circuit_breaker_config st.circuits circuit_key now
  let st := { st with circuits := circuits }
  match cres with
  | .error e => (st, .error e)
  | .ok _ =>
  match validate_resources request.resource_requirements with
  | .error e => (st, .error e)
  | .ok _ => (st, .ok ())

/-- `EnforcementGateway::record_execution_result`: update the tenant circuit
(spawned mutation, modelled as applied); metrics elided. -/
def record_execution_result (cfg : EnforcementConfig) (st : EnforcementState)
    (request : ExecuteTaskRequest) (success : Bool) (now : Nat) : EnforcementState :=
  let circuit_key := "tenant:" ++ request.tenant_id
  if success then
    { st with circuits := record_success cfg.circuit_breaker_config st.circuits circuit_key }
  else
    { st with circuits := record_failure cfg.circuit_breaker_config st.circuits circuit_key now }

/-! ### fsm.rs — execution state machine -/

/-- State categories (`StateType`). -/
inductive StateType
  | Initial
  | Processing
  | Waiting
  | Decision
  | Terminal
  | Error
deriving DecidableEq

/-- Transition conditions (`TransitionCondition`). -/
inductive TransitionCondition
  | Always
  | OnEvent (event_type : String)
  | OnTimeout
  | OnSuccess
  | OnError
  | OnCondition (expr : String)
  | Custom (handler : String)
deriving DecidableEq

/-- Actions attached to states and transitions (`Action`); the metrics value
is an f64 in the source, modelled as a rational. -/
inductive Action
  | Log (msg : String)
  | SetVariable (key : String) (value : String)
  | CallFunction (name : String) (args : List String)
  | SendEvent (event_type : String) (payload : List (String × String))
  | UpdateMetrics (name : String) (value : Rat)
  | Custom (handler : String) (params : List (String × String))
deriving DecidableEq

/-- A registered state (`State`); the optional timeout is in seconds. -/
structure State where
  id : String
  name : String
  state_type : StateType
  entry_actions : List Action
  exit_actions : List Action
  timeout : Option Nat
  metadata : List (String × String)
deriving DecidableEq

/-- A registered transition (`Transition`). -/
structure Transition where
  id : String
  from_state : String
  to_state : String
  condition : TransitionCondition
  actions : List Action
  priority : Nat
deriving DecidableEq

/-- An event delivered to an instance (`Event`); timestamps are ticks. -/
structure Event where
  id : String
  event_type : String
  payload : List (String × String)
  timestamp : Nat
deriving DecidableEq

/-- A record appended to the execution history (`TransitionRecord`). -/
structure TransitionRecord where
  from_state : String
  to_state : String
  transition_id : String
  timestamp : Nat
  duration : Nat
  success : Bool
  error_message : Option String
deriving DecidableEq

/-- Instance status (`InstanceStatus`). -/
inductive InstanceStatus
  | Running
  | Paused
  | Completed
  | Failed
  | Timeout
deriving DecidableEq

/-- Per-instance context (`StateMachineContext`); the source field `variables`
is spelled `vars` here because `variables` is reserved in Lean. -/
structure StateMachineContext where
  vars : List (String × String)
  events : List Event
  execution_history : List TransitionRecord
  metadata : List (String × String)
deriving DecidableEq

/-- A running instance (`StateMachineInstance`). -/
structure StateMachineInstance where
  id : String
  current_state : String
  context : StateMachineContext
  created_at : Nat
  last_transition : Nat
  transition_count : Nat
  status : InstanceStatus
deriving DecidableEq

/-- FSM configuration ceilings (config.rs `FSMConfig`). -/
structure FSMConfig where
  max_states : Nat
  max_transitions : Nat

/-- The three guarded maps of `StateMachine`: registered states, transitions
bucketed by source-state id, and live instances. -/
structure StateMachine where
  states : List (String × State)
  transitions : List (String × List Transition)
  active_instances : List (String × StateMachineInstance)

/-- Result snapshot returned by `complete_instance` (`StateMachineResult`). -/
structure StateMachineResult where
  instance_id : String
  final_state : String
  status : InstanceStatus
  execution_time : Nat
  transition_count : Nat
  context : StateMachineContext
deriving DecidableEq

/-- Loop body of `StateMachine::add_states`: before each insertion the current
map size is checked against the ceiling; on overage the loop stops with the
distinct states error, keeping all earlier insertions. -/
def add_states_loop (max_states : Nat) (state_map : List (String × State)) :
    List State → List (String × State) × Except String Unit
  | [] => (state_map, .ok ())
  | s :: rest =>
      if state_map.length ≥ max_states then
        (state_map, .error "Maximum number of states exceeded")
      else add_states_loop max_states (insertA state_map s.id s) rest

/-- `StateMachine::add_states`. -/
def add_states (cfg : FSMConfig) (sm : StateMachine) (states : List State) :
    StateMachine × Except String Unit :=
  let (m, r) := add_states_loop cfg.max_states sm.states states
  ({ sm with states := m }, r)

/-- Total number of registered transitions, summed over the buckets. -/
def totalTransitions (tm : List (String × List Transition)) : Nat :=
  (tm.map (fun kv => kv.2.length)).sum

/-- `entry(from_state).or_insert_with(Vec::new).push(transition)`. -/
def pushTransition (tm : List (String × List Transition)) (t : Transition) :
    List (String × List Transition) :=
  match tm with
  | [] => [(t.from_state, [t])]
  | (k, v) :: rest =>
      if k == t.from_state then (k, v ++ [t]) :: rest
      else (k, v) :: pushTransition rest t

/-- Loop body of `StateMachine::add_transitions`: the total is re-counted before
each push; overage stops with the distinct transitions error, keeping earlier
pushes. -/
def add_transitions_loop (max_transitions : Nat) (tm : List (String × List Transition)) :
    List Transition → List (String × List Transition) × Except String Unit
  | [] => (tm, .ok ())
  | t :: rest =>
      if totalTransitions tm ≥ max_transitions then
        (tm, .error "Maximum number of transitions exceeded")
      else add_transitions_loop max_transitions (pushTransition tm t) rest

/-- `StateMachine::add_transitions`. -/
def add_transitions (cfg : FSMConfig) (sm : StateMachine) (ts : List Transition) :
    StateMachine × Except String Unit :=
  let (m, r) := add_transitions_loop cfg.max_transitions sm.transitions ts
  ({ sm with transitions := m }, r)

/-- `StateMachine::evaluate_transition_condition`: a pure predicate (the
source wraps the result in `Ok`; `OnTimeout`, `OnCondition` and `Custom`
always evaluate to false). -/
def evaluate_transition_condition (c : TransitionCondition) (event : Option Event) : Bool :=
  match c with
  | .Always => true
  | .OnEvent event_type =>
      match event with
      | some e => e.event_type == event_type
      | none => false
  | .OnTimeout => false
  | .OnSuccess =>
      match event with
      | some e => e.event_type == "success"
      | none => false
  | .OnError =>
      match event with
      | some e => e.event_type == "error"
      | none => false
  | .OnCondition _ => false
  | .Custom _ => false

/-- `StateMachine::execute_action` on the instances map: only `SetVariable`
mutates the instance (via `get_mut`); the other variants log or are no-op
hooks. -/
def execute_action (instances : List (String × StateMachineInstance))
    (instance_id : String) (a : Action) : List (String × StateMachineInstance) :=
  match a with
  | .SetVariable key value =>
      updateA instances instance_id (fun inst =>
        { inst with context :=
            { inst.context with vars := insertA inst.context.vars key value } })
  | _ => instances

/-- Run a list of actions in order against the instances map. -/
def run_actions (instances : List (String × StateMachineInstance))
    (instance_id : String) (acts : List Action) : List (String × StateMachineInstance) :=
  acts.foldl (fun m a => execute_action m instance_id a) instances

/-- The exit actions of a registered state; an unregistered id (such as the
wildcard `"*"`) has none. -/
def state_exit_actions (states : List (String × State)) (state_id : String) : List Action :=
  match lookupA states state_id with
  | some s => s.exit_actions
  | none => []

/-- The entry actions of a registered state. -/
def state_entry_actions (states : List (String × State)) (state_id : String) : List Action :=
  match lookupA states state_id with
  | some s => s.entry_actions
  | none => []

/-- `StateMachine::execute_transition` at time `now`.  In source order: exit
actions of `transition.from_state` (the literal source-state id of the fired
transition — the wildcard id `"*"` for wildcard transitions), the transition's
own actions, then under the instances lock the history append, state change,
timestamp, counter bump and terminal/error status, then the entry actions of
the target.  Also returns the executed actions in execution order. -/
def execute_transition (sm : StateMachine) (instance_id : String) (t : Transition)
    (now : Nat) : StateMachine × List Action :=
  let exitActs := state_exit_actions sm.states t.from_state
  let m1 := run_actions sm.active_instances instance_id exitActs
  let m2 := run_actions m1 instance_id t.actions
  let m3 := updateA m2 instance_id (fun inst =>
    let record0 : TransitionRecord :=
      { from_state := t.from_state, to_state := t.to_state, transition_id := t.id,
        timestamp := now, duration := 0, success := true, error_message := none }
    let inst :=
      { inst with
        context :=
          { inst.context with execution_history := inst.context.execution_history ++ [record0] },
        current_state := t.to_state,
        last_transition := now,
        transition_count := inst.transition_count + 1 }
    match lookupA sm.states t.to_state with
    | some s =>
        if s.state_type == .Terminal then { inst with status := .Completed }
        else if s.state_type == .Error then { inst with status := .Failed }
        else inst
    | none => inst)
  let entryActs := state_entry_actions sm.states t.to_state
  let m4 := run_actions m3 instance_id entryActs
  ({ sm with active_instances := m4 }, exitActs ++ t.actions ++ entryActs)

/-- The candidate transitions for a trigger: the bucket of the current state
followed by the wildcard bucket, each in registration order. -/
def candidate_transitions (tm : List (String × List Transition)) (current_state : String) :
    List Transition :=
  (match lookupA tm current_state with | some l => l | none => []) ++
  (match lookupA tm "*" with | some l => l | none => [])

/-- Stable insertion step of the priority sort: a transition is placed before
the first candidate of priority not above its own. -/
def insertByPriority (t : Transition) : List Transition → List Transition
  | [] => [t]
  | u :: us => if u.priority > t.priority then u :: insertByPriority t us else t :: u :: us

/-- The stable descending sort written
`sort_by(|a, b| b.priority.cmp(&a.priority))` in the source (`slice::sort_by`
is stable, so any stable sort by the same key computes the same list). -/
def sortByPriorityDesc : List Transition → List Transition
  | [] => []
  | t :: ts => insertByPriority t (sortByPriorityDesc ts)

/-- The transition `check_transitions` fires: the first candidate, in stably
priority-sorted order, whose condition evaluates to true. -/
def fired_transition (sm : StateMachine) (current_state : String) (event : Option Event) :
    Option Transition :=
  (sortByPriorityDesc (candidate_transitions sm.transitions current_state)).find?
    (fun t => evaluate_transition_condition t.condition event)

/-- `StateMachine::check_transitions`: execute the fired transition, if any
(the loop breaks after the first match), and report the executed actions. -/
def check_transitions (sm : StateMachine) (instance_id : String) (current_state : String)
    (event : Option Event) (now : Nat) : StateMachine × List Action :=
  match fired_transition sm current_state event with
  | some t => execute_transition sm instance_id t now
  | none => (sm, [])

/-- `StateMachine::trigger_event` at time `now`: look up the instance (error
when absent), append the event to its log, then check transitions from the
state it had when the lock was taken. -/
def trigger_event (sm : StateMachine) (instance_id : String) (event : Event) (now : Nat) :
    Except String (StateMachine × List Action) :=
  match lookupA sm.active_instances instance_id with
  | none => .error ("Instance not found: " ++ instance_id)
  | some inst =>
      let sm1 :=
        { sm with active_instances :=
            updateA sm.active_instances instance_id (fun i =>
              { i with context := { i.context with events := i.context.events ++ [event] } }) }
      let current_state := inst.current_state
      .ok (check_transitions sm1 instance_id current_state (some event) now)

/-- `StateMachine::create_instance` at time `now`, with the minted UUID passed
in as `instance_id`: insert a Running instance in state `"initial"` and run
the initial state's entry actions. -/
def create_instance (sm : StateMachine) (instance_id : String)
    (initial_context : StateMachineContext) (now : Nat) : StateMachine :=
  let inst : StateMachineInstance :=
    { id := instance_id, current_state := "initial", context := initial_context,
      created_at := now, last_transition := now, transition_count := 0, status := .Running }
  let sm1 := { sm with active_instances := insertA sm.active_instances instance_id inst }
  { sm1 with active_instances :=
      run_actions sm1.active_instances instance_id (state_entry_actions sm1.states "initial") }

/-- `StateMachine::complete_instance` at time `now`: remove the instance
(error when absent) and return its snapshot. -/
def complete_instance (sm : StateMachine) (instance_id : String) (now : Nat) :
    Except String (StateMachine × StateMachineResult) :=
  match lookupA sm.active_instances instance_id with
  | none => .error ("Instance not found: " ++ instance_id)
  | some inst =>
      .ok ({ sm with active_instances := removeA sm.active_instances instance_id },
           { instance_id := inst.id, final_state := inst.current_state,
             status := inst.status, execution_time := now - inst.created_at,
             transition_count := inst.transition_count, context := inst.context })

/-- The seven default states installed by `initialize_default_fsm`. -/
def default_states : List State :=
  [ { id := "initial", name := "Initial", state_type := .Initial,
      entry_actions := [.Log "Agent execution started"], exit_actions := [],
      timeout := some 30, metadata := [] },
    { id := "analyzing", name := "Analyzing Task", state_type := .Processing,
      entry_actions := [.Log "Starting task analysis"], exit_actions := [],
      timeout := some 60, metadata := [] },
    { id := "planning", name := "Planning Execution", state_type := .Processing,
      entry_actions := [.Log "Planning execution strategy"], exit_actions := [],
      timeout := some 45, metadata := [] },
    { id := "executing", name := "Executing Task", state_type := .Processing,
      entry_actions := [.Log "Executing task"], exit_actions := [],
      timeout := some 300, metadata := [] },
    { id := "validating", name := "Validating Results", state_type := .Processing,
      entry_actions := [.Log "Validating execution results"], exit_actions := [],
      timeout := some 30, metadata := [] },
    { id := "completed", name := "Completed", state_type := .Terminal,
      entry_actions := [.Log "Task completed successfully"], exit_actions := [],
      timeout := none, metadata := [] },
    { id := "failed", name := "Failed", state_type := .Error,
      entry_actions := [.Log "Task execution failed"], exit_actions := [],
      timeout := none, metadata := [] } ]

/-- The wildcard error transition of the default graph (priority 10). -/
def any_to_failed_transition : Transition :=
  { id := "any_to_failed", from_state := "*", to_state := "failed",
    condition := .OnError, actions := [.Log "Transitioning to failed state"],
    priority := 10 }

/-- The wildcard timeout transition of the default graph (priority 9). -/
def timeout_to_failed_transition : Transition :=
  { id := "timeout_to_failed", from_state := "*", to_state := "failed",
    condition := .OnTimeout, actions := [.Log "State timeout occurred"],
    priority := 9 }

/-- The seven default transitions installed by `initialize_default_fsm`. -/
def default_transitions : List Transition :=
  [ { id := "init_to_analyzing", from_state := "initial", to_state := "analyzing",
      condition := .Always, actions := [], priority := 1 },
    { id := "analyzing_to_planning", from_state := "analyzing", to_state := "planning",
      condition := .OnSuccess, actions := [], priority := 1 },
    { id := "planning_to_executing", from_state := "planning", to_state := "executing",
      condition := .OnSuccess, actions := [], priority := 1 },
    { id := "executing_to_validating", from_state := "executing", to_state := "validating",
      condition := .OnSuccess, actions := [], priority := 1 },
    { id := "validating_to_completed", from_state := "validating", to_state := "completed",
      condition := .OnSuccess, actions := [], priority := 1 },
    any_to_failed_transition,
    timeout_to_failed_transition ]

/-- The default FSM configuration (config.rs defaults:
`FSM_MAX_STATES` 1000, `FSM_MAX_TRANSITIONS` 10000). -/
def defaultFSMConfig : FSMConfig := { max_states := 1000, max_transitions := 10000 }

/-- The state machine as built by `StateMachine::new` under the default
configuration: default states and transitions registered, no instances. -/
def default_fsm : StateMachine :=
  let sm0 : StateMachine := { states := [], transitions := [], active_instances := [] }
  let (sm1, _) := add_states defaultFSMConfig sm0 default_states
  let (sm2, _) := add_transitions defaultFSMConfig sm1 default_transitions
  sm2

/-! ### sandbox.rs — result types consumed by the orchestrator -/

/-- Sandbox execution status (`ExecutionStatus`). -/
inductive ExecutionStatus
  | Success
  | Timeout
  | MemoryLimit
  | CpuLimit
  | SecurityViolation
  | RuntimeError
  | CompilationError
deriving DecidableEq

/-- Sandbox resource metrics (`ExecutionMetrics`); `cpu_time` held in
milliseconds, the unit the orchestrator reads via `as_millis`. -/
structure ExecutionMetrics where
  memory_used : Nat
  cpu_time_ms : Nat
  syscalls_count : Nat
  file_operations : Nat
  network_requests : Nat
deriving DecidableEq

/-- Sandbox execution result (`ExecutionResult` of sandbox.rs). -/
structure SandboxExecutionResult where
  execution_id : String
  status : ExecutionStatus
  output : String
  error_message : Option String
  metrics : ExecutionMetrics
  duration : Nat
deriving DecidableEq

/-! ### execution.rs — orchestrator pipeline and live registry -/

/-- Supported languages (`CodeLanguage`). -/
inductive CodeLanguage
  | Python
  | JavaScript
  | WebAssembly
deriving DecidableEq

/-- The `{:?}` rendering of a language, as stored in the FSM context. -/
def CodeLanguage.debugStr : CodeLanguage → String
  | .Python => "Python"
  | .JavaScript => "JavaScript"
  | .WebAssembly => "WebAssembly"

/-- Pipeline stage of a live execution (`ExecutionEngineStatus`). -/
inductive ExecutionEngineStatus
  | Initializing
  | PolicyCheck
  | Executing
  | Validating
  | Completed
  | Failed
deriving DecidableEq

/-- A live-registry entry (`ActiveExecution`). -/
structure ActiveExecution where
  execution_id : String
  user_id : String
  tenant_id : String
  session_id : String
  fsm_instance_id : String
  started_at : Nat
  status : ExecutionEngineStatus
deriving DecidableEq

/-- A request to execute agent code (`AgentExecutionRequest`). -/
structure AgentExecutionRequest where
  user_id : String
  tenant_id : String
  session_id : String
  code : String
  language : CodeLanguage
  timeout : Nat
  memory_limit : Nat
  cpu_limit : Nat
  environment : List (String × String)
  allowed_hosts : List String

/-- The orchestrator's result (`AgentExecutionResult`); the USD cost is an
exact rational in place of the source's f64. -/
structure AgentExecutionResult where
  execution_id : String
  status : ExecutionStatus
  output : String
  error_message : Option String
  execution_time : Nat
  tokens_used : Nat
  cost_usd : Rat
  security_violations : List String
  fsm_result : Option StateMachineResult

/-- `ExecutionEngine::estimate_tokens`: `100 + code.len() / 4`. -/
def estimate_tokens (code : String) : Nat :=
  100 + code.length / 4

/-- `ExecutionEngine::calculate_actual_tokens`:
`50 + output.len() / 4 + cpu_millis / 100`. -/
def calculate_actual_tokens (result : SandboxExecutionResult) : Nat :=
  50 + result.output.length / 4 + result.metrics.cpu_time_ms / 100

/-- `ExecutionEngine::calculate_cost`: 0.002 dollars per token. -/
def calculate_cost (tokens_used : Nat) : Rat :=
  (tokens_used : Rat) * (2 / 1000)

/-- The engine's shared mutable state: the live registry, the FSM maps and the
enforcement gateway state. -/
structure EngineState where
  active_executions : List (String × ActiveExecution)
  fsm : StateMachine
  enforcement : EnforcementState

/-- External effects of one pipeline run, resolved ahead of time: the minted
UUIDs, the audit-logger configuration and write outcome, the sandbox outcome
for a non-WASM run, and the clocks. -/
structure EngineEnv where
  execution_id : String
  fsm_instance_id : String
  event_id : String
  audit_enabled : Bool
  audit_write : Except String Unit
  sandbox_outcome : Except String SandboxExecutionResult
  now : Nat
  now_s : Rat

/-- Step 2 of `execute_with_monitoring`: the `ExecuteTaskRequest` derived from
an `AgentExecutionRequest` — the task id is the execution id, tokens are
estimated from the code length, and the resource vector uses the request's
memory limit in MB with fixed cpu / bandwidth / storage figures. -/
def derived_enforcement_request (env : EngineEnv) (request : AgentExecutionRequest) :
    ExecuteTaskRequest :=
  { user_id := request.user_id, tenant_id := request.tenant_id,
    session_id := request.session_id, task_id := env.execution_id,
    estimated_duration := request.timeout,
    estimated_tokens := estimate_tokens request.code,
    priority := .Normal,
    resource_requirements :=
      { memory_mb := request.memory_limit / 1024 / 1024, cpu_cores := 1,
        network_bandwidth_mbps := 10, storage_mb := 100 } }

/-- `ExecutionEngine::update_execution_status`: mutate the registry entry if
it is still present. -/
def update_execution_status (reg : List (String × ActiveExecution))
    (execution_id : String) (status : ExecutionEngineStatus) :
    List (String × ActiveExecution) :=
  updateA reg execution_id (fun e => { e with status := status })

/-- Steps 6-9 of `execute_with_monitoring`, after the sandbox ran: trigger the
success/error FSM event, record the outcome with the gateway, complete the FSM
instance, set the final stage, and assemble the result. -/
def finish_execution (cfg : EnforcementConfig) (env : EngineEnv) (st : EngineState)
    (enforcement_request : ExecuteTaskRequest)
    (security_violations : List String) (sandbox_result : SandboxExecutionResult) :
    EngineState × Except String AgentExecutionResult :=
  let st := { st with active_executions :=
      update_execution_status st.active_executions env.execution_id .Validating }
  let result_event : Event :=
    if sandbox_result.status == .Success then
      { id := env.event_id, event_type := "success",
        payload := [("output_length", toString sandbox_result.output.length)],
        timestamp := env.now }
    else
      { id := env.event_id, event_type := "error",
        payload := [("error", (sandbox_result.error_message.getD ""))],
        timestamp := env.now }
  match trigger_event st.fsm env.fsm_instance_id result_event env.now with
  | .error e => (st, .error e)
  | .ok (fsm1, _) =>
  let st := { st with fsm := fsm1 }
  let execution_success := sandbox_result.status == .Success
  let tokens_used := calculate_actual_tokens sandbox_result
  let cost_usd := calculate_cost tokens_used
  let st := { st with enforcement :=
      record_execution_result cfg st.enforcement enforcement_request execution_success env.now }
  match complete_instance st.fsm env.fsm_instance_id env.now with
  | .error e => (st, .error e)
  | .ok (fsm2, fsm_result) =>
  let st := { st with fsm := fsm2 }
  let final_status : ExecutionEngineStatus :=
    if execution_success then .Completed else .Failed
  let st := { st with active_executions :=
      update_execution_status st.active_executions env.execution_id final_status }
  (st, .ok { execution_id := env.execution_id, status := sandbox_result.status,
             output := sandbox_result.output,
             error_message := sandbox_result.error_message,
             execution_time := env.now, tokens_used := tokens_used,
             cost_usd := cost_usd, security_violations := security_violations,
             fsm_result := some fsm_result })

/-- `ExecutionEngine::execute_with_monitoring`: the pipeline body run between
registry insertion and removal.  Mirrors the source's steps: security
validation (early `SecurityViolation` result when unsafe, error propagation
when `validate_code` itself fails), enforcement request derivation and
preflight (early `SecurityViolation` result on an enforcement error), FSM
instance creation and registry update, the `start_analysis` event, the
language dispatch (WebAssembly returns an error), then `finish_execution`. -/
def execute_with_monitoring (cfg : EnforcementConfig) (env : EngineEnv) (st : EngineState)
    (request : AgentExecutionRequest) : EngineState × Except String AgentExecutionResult :=
  let st := { st with active_executions :=
      update_execution_status st.active_executions env.execution_id .PolicyCheck }
  match validate_code env.audit_enabled env.audit_write request.code request.user_id with
  | .error e => (st, .error e)
  | .ok security_result =>
  if !security_result.is_safe then
    (st, .ok { execution_id := env.execution_id, status := .SecurityViolation,
               output := "", error_message := some "Security validation failed",
               execution_time := env.now, tokens_used := 0, cost_usd := 0,
               security_violations := security_result.violations, fsm_result := none })
  else
  let enforcement_request := derived_enforcement_request env request
  let (enf1, eres) := enforce_request cfg st.enforcement env.now_s env.now enforcement_request
  let st := { st with enforcement := enf1 }
  match eres with
  | .error e =>
      (st, .ok { execution_id := env.execution_id, status := .SecurityViolation,
                 output := "",
                 error_message := some ("Policy enforcement failed: " ++ e.display),
                 execution_time := env.now, tokens_used := 0, cost_usd := 0,
                 security_violations := ["Policy violation: " ++ e.display],
                 fsm_result := none })
  | .ok _ =>
  let fsm_context : StateMachineContext :=
    { vars := [("execution_id", env.execution_id), ("user_id", request.user_id),
               ("language", request.language.debugStr)],
      events := [], execution_history := [], metadata := [] }
  let st := { st with fsm := create_instance st.fsm env.fsm_instance_id fsm_context env.now }
  let reg1 :=
    updateA st.active_executions env.execution_id
      (fun e => { e with fsm_instance_id := env.fsm_instance_id })
  let st := { st with active_executions := reg1 }
  let st := { st with active_executions :=
      update_execution_status st.active_executions env.execution_id .Executing }
  let analyzing_event : Event :=
    { id := env.event_id, event_type := "start_analysis", payload := [],
      timestamp := env.now }
  match trigger_event st.fsm env.fsm_instance_id analyzing_event env.now with
  | .error e => (st, .error e)
  | .ok (fsm1, _) =>
  let st := { st with fsm := fsm1 }
  match request.language with
  | .WebAssembly => (st, .error "WebAssembly execution not yet implemented")
  | _ =>
  match env.sandbox_outcome with
  | .error e => (st, .error e)
  | .ok sandbox_result =>
      finish_execution cfg env st enforcement_request security_result.violations sandbox_result

/-- The `ActiveExecution` record created at request entry (stage
Initializing; the FSM instance id is filled in later). -/
def initial_active_execution (env : EngineEnv) (request : AgentExecutionRequest) :
    ActiveExecution :=
  { execution_id := env.execution_id, user_id := request.user_id,
    tenant_id := request.tenant_id, session_id := request.session_id,
    fsm_instance_id := "", started_at := env.now, status := .Initializing }

/-- The engine state right after the `ActiveExecution` insert of
`execute_agent_code`. -/
def engine_with_entry (env : EngineEnv) (st : EngineState)
    (request : AgentExecutionRequest) : EngineState :=
  let reg0 := insertA st.active_executions env.execution_id
    (initial_active_execution env request)
  { st with active_executions := reg0 }

/-- `ExecutionEngine::execute_agent_code`: mint the execution id (supplied by
the environment), insert the `ActiveExecution`, run the monitored pipeline,
then remove the registry entry whatever the outcome. -/
def execute_agent_code (cfg : EnforcementConfig) (env : EngineEnv) (st : EngineState)
    (request : AgentExecutionRequest) : EngineState × Except String AgentExecutionResult :=
  let st1 := engine_with_entry env st request
  let (st2, result) := execute_with_monitoring cfg env st1 request
  ({ st2 with active_executions := removeA st2.active_executions env.execution_id }, result)

/-! ### Derived notions used by the theorems -/

/-- The first element of a transition list attaining the maximal priority
(`none` exactly on the empty list).  This is what the head of a stable
descending sort computes. -/
def firstMaxPriority : List Transition → Option Transition
  | [] => none
  | t :: ts =>
      match firstMaxPriority ts with
      | none => some t
      | some u => if u.priority > t.priority then some u else some t

/-- The status a circuit key currently shows; a missing key reads as the
fresh (Closed) state the maps create on first use. -/
def circuit_status_at (circuits : List (String × CircuitState)) (key : String) :
    CircuitStatus :=
  ((lookupA circuits key).getD freshCircuit).state

/-- One step of the section 4.3 circuit state machine, or no movement:
Closed to Open on failures, Open to HalfOpen on a probe, HalfOpen to Closed
on recovery, HalfOpen to Open on failure. -/
def CircuitEdgeOrSame (a b : CircuitStatus) : Prop :=
  a = b ∨ (a = .Closed ∧ b = .Open) ∨ (a = .Open ∧ b = .HalfOpen) ∨
    (a = .HalfOpen ∧ b = .Closed) ∨ (a = .HalfOpen ∧ b = .Open)

/-- The action trace of a successful `trigger_event`, for observing execution
order. -/
def transition_trace (r : Except String (StateMachine × List Action)) :
    Option (List Action) :=
  match r with
  | .ok (_, acts) => some acts
  | .error _ => none

/-- The control-relevant core of an instance: current state, status and
transition counter (everything except its context). -/
def instance_core (i : StateMachineInstance) : String × InstanceStatus × Nat :=
  (i.current_state, i.status, i.transition_count)

/-- The core of the named instance after a trigger, `none` on a trigger
error. -/
def instance_core_after (r : Except String (StateMachine × List Action))
    (instance_id : String) : Option (String × InstanceStatus × Nat) :=
  match r with
  | .ok (sm, _) => (lookupA sm.active_instances instance_id).map instance_core
  | .error _ => none

/-! ### Concrete inputs used by counterexamples and witnesses -/

/-- Circuit-breaker configuration at the config.rs defaults
(failure 5, success 3, timeout 60). -/
def exCircuitCfg : CircuitBreakerConfig :=
  { failure_threshold := 5, success_threshold := 3, timeout := 60 }

/-- A HalfOpen circuit that has just seen a successful probe, so its
consecutive-failure counter is zero. -/
def exHalfOpenCircuit : CircuitState :=
  { state := .HalfOpen, failure_count := 0, success_count := 1, last_failure := some 0 }

/-- A processing state with a nonempty exit-action list. -/
def exStateS : State :=
  { id := "s", name := "S", state_type := .Processing, entry_actions := [],
    exit_actions := [.Log "leaving s"], timeout := none, metadata := [] }

/-- An error state with an entry action. -/
def exStateFailed : State :=
  { id := "failed", name := "Failed", state_type := .Error,
    entry_actions := [.Log "entered failed"], exit_actions := [],
    timeout := none, metadata := [] }

/-- A wildcard-source transition reacting to error events. -/
def exWildcard : Transition :=
  { id := "w", from_state := "*", to_state := "failed", condition := .OnError,
    actions := [.Log "wildcard fired"], priority := 10 }

/-- An instance sitting in state `"s"`. -/
def exInstanceS : StateMachineInstance :=
  { id := "i", current_state := "s",
    context := { vars := [], events := [], execution_history := [], metadata := [] },
    created_at := 0, last_transition := 0, transition_count := 0, status := .Running }

/-- A machine registering `exStateS` (which has exit actions) and
`exStateFailed`, a single wildcard transition, and `exInstanceS`. -/
def exC4Machine : StateMachine :=
  { states := [("s", exStateS), ("failed", exStateFailed)],
    transitions := [("*", [exWildcard])],
    active_instances := [("i", exInstanceS)] }

/-- An error event. -/
def exErrorEvent : Event :=
  { id := "e", event_type := "error", payload := [], timestamp := 5 }

/-- A wildcard transition on event `"x"`, priority 5, registered first. -/
def exTieWildcard : Transition :=
  { id := "tA", from_state := "*", to_state := "a", condition := .OnEvent "x",
    actions := [], priority := 5 }

/-- A same-priority transition out of state `"s"` on the same event,
registered second. -/
def exTieFromS : Transition :=
  { id := "tB", from_state := "s", to_state := "b", condition := .OnEvent "x",
    actions := [], priority := 5 }

/-- The machine holding the two tied transitions in registration order. -/
def exTieMachine : StateMachine :=
  (add_transitions defaultFSMConfig
    { states := [], transitions := [], active_instances := [] }
    [exTieWildcard, exTieFromS]).1

/-- The event both tied transitions react to. -/
def exEventX : Event :=
  { id := "e", event_type := "x", payload := [], timestamp := 0 }

/-- A first plain state for the registration counterexample. -/
def exStateOne : State :=
  { id := "s1", name := "S1", state_type := .Processing, entry_actions := [],
    exit_actions := [], timeout := none, metadata := [] }

/-- A second plain state for the registration counterexample. -/
def exStateTwo : State :=
  { id := "s2", name := "S2", state_type := .Processing, entry_actions := [],
    exit_actions := [], timeout := none, metadata := [] }

/-- A configuration whose ceilings are one state and one transition. -/
def exTinyCfg : FSMConfig := { max_states := 1, max_transitions := 1 }

/-- A machine with nothing registered. -/
def exEmptyMachine : StateMachine :=
  { states := [], transitions := [], active_instances := [] }

/-- A completed instance of the default graph (final state `"completed"`,
status Completed), parameterised over its bookkeeping fields. -/
def completedInstance (ctx : StateMachineContext) (c l n : Nat) : StateMachineInstance :=
  { id := "i", current_state := "completed", context := ctx,
    created_at := c, last_transition := l, transition_count := n, status := .Completed }

/-- The default machine holding one completed instance. -/
def completedMachine (ctx : StateMachineContext) (c l n : Nat) : StateMachine :=
  { default_fsm with active_instances := [("i", completedInstance ctx c l n)] }

/-- The completed-instance machine after `trigger_event` has appended an
event to the instance's log (the state it checks transitions from). -/
def completedWithEvent (ctx : StateMachineContext) (c l n : Nat) (event : Event) :
    StateMachine :=
  let pushed :=
    updateA (completedMachine ctx c l n).active_instances "i" (fun i =>
      { i with context := { i.context with events := i.context.events ++ [event] } })
  { completedMachine ctx c l n with active_instances := pushed }

/-- An empty instance context. -/
def exEmptyCtx : StateMachineContext :=
  { vars := [], events := [], execution_history := [], metadata := [] }

/-- A success event used against the completed instance. -/
def exSuccessEvent : Event :=
  { id := "e2", event_type := "success", payload := [], timestamp := 9 }

/-- The enforcement configuration at the config.rs defaults. -/
def exEnforcementCfg : EnforcementConfig :=
  { timeout_config := { max_duration := 300, warning_threshold := 60 },
    rate_limit_config := { requests_per_second := 100, burst_size := 200, window_size := 60 },
    circuit_breaker_config := exCircuitCfg,
    token_validator_config := { max_tokens := 10000, cost_per_token := 2 / 1000 } }

/-- A small Python request within every ceiling. -/
def exRequest : AgentExecutionRequest :=
  { user_id := "u1", tenant_id := "t1", session_id := "sess", code := "print(1)",
    language := .Python, timeout := 5, memory_limit := 64 * 1024 * 1024,
    cpu_limit := 1000000000, environment := [], allowed_hosts := [] }

/-- The same request asking for WebAssembly. -/
def exRequestWasm : AgentExecutionRequest :=
  { exRequest with language := .WebAssembly }

/-- A pipeline environment with a healthy audit log and fixed minted ids. -/
def exEnv : EngineEnv :=
  { execution_id := "X", fsm_instance_id := "F", event_id := "E",
    audit_enabled := true, audit_write := .ok (),
    sandbox_outcome := .error "unused", now := 0, now_s := 0 }

/-- A fresh engine: empty registry, the default FSM, empty gateway maps. -/
def exEngineState : EngineState :=
  { active_executions := [], fsm := default_fsm,
    enforcement := { buckets := [], circuits := [] } }

/-- An enforcement request used to exercise the check order. -/
def exTaskRequest : ExecuteTaskRequest :=
  { user_id := "u1", tenant_id := "t1", session_id := "sess", task_id := "X",
    estimated_duration := 5, estimated_tokens := 102, priority := .Normal,
    resource_requirements :=
      { memory_mb := 64, cpu_cores := 1, network_bandwidth_mbps := 10, storage_mb := 100 } }

/-- A request sitting exactly on every threshold of the default enforcement
configuration (duration 300, tokens 10000, memory 2048 MB, 4 cores, 100 Mbps,
1024 MB storage). -/
def exBoundaryRequest : ExecuteTaskRequest :=
  { user_id := "u1", tenant_id := "t1", session_id := "sess", task_id := "X",
    estimated_duration := 300, estimated_tokens := 10000, priority := .Normal,
    resource_requirements :=
      { memory_mb := 2048, cpu_cores := 4, network_bandwidth_mbps := 100,
        storage_mb := 1024 } }

/-- A fresh (empty) enforcement gateway state. -/
def exFreshEnforcement : EnforcementState := { buckets := [], circuits := [] }

/-! ## Lemmas about the association-list maps -/

theorem lookupA_insertA_self {α : Type} (m : List (String × α)) (k : String) (v : α) :
    lookupA (insertA m k v) k = some v := by
  simp [insertA, lookupA]

theorem lookupA_removeA_self {α : Type} (m : List (String × α)) (k : String) :
    lookupA (removeA m k) k = none := by
  induction m with
  | nil => rfl
  | cons kv t ih =>
      by_cases h : kv.1 = k
      · simpa [removeA, h] using ih
      · simpa [removeA, lookupA, h] using ih

theorem lookupA_removeA_ne {α : Type} (m : List (String × α)) (k k2 : String)
    (h : k2 ≠ k) : lookupA (removeA m k) k2 = lookupA m k2 := by
  induction m with
  | nil => rfl
  | cons kv t ih =>
      by_cases h1 : kv.1 = k
      · have h2 : ¬(kv.1 = k2) := by rw [h1]; exact Ne.symm h
        simpa [removeA, lookupA, h1, h2, Ne.symm h] using ih
      · by_cases h2 : kv.1 = k2
        · simp [removeA, lookupA, List.filter_cons, h1, h2, bne_iff_ne, h, Ne.symm h]
        · simpa [removeA, lookupA, h1, h2] using ih

theorem lookupA_insertA_ne {α : Type} (m : List (String × α)) (k k2 : String) (v : α)
    (h : k2 ≠ k) : lookupA (insertA m k v) k2 = lookupA m k2 := by
  simp [insertA, lookupA, Ne.symm h, lookupA_removeA_ne m k k2 h]

theorem lookupA_updateA_self {α : Type} (m : List (String × α)) (k : String) (f : α → α) :
    lookupA (updateA m k f) k = (lookupA m k).map f := by
  induction m with
  | nil => rfl
  | cons kv t ih =>
      by_cases h : kv.1 = k
      · simp [updateA, lookupA, h]
      · simpa [updateA, lookupA, h] using ih

theorem lookupA_updateA_ne {α : Type} (m : List (String × α)) (k k2 : String) (f : α → α)
    (h : k2 ≠ k) : lookupA (updateA m k f) k2 = lookupA m k2 := by
  induction m with
  | nil => rfl
  | cons kv t ih =>
      by_cases h1 : kv.1 = k
      · have h2 : ¬(kv.1 = k2) := by rw [h1]; exact Ne.symm h
        simp [updateA, lookupA, h1, h2, Ne.symm h]
      · by_cases h2 : kv.1 = k2
        · simp [updateA, lookupA, h1, h2, h]
        · simpa [updateA, lookupA, h1, h2] using ih

theorem lookupA_updateA_isSome {α : Type} (m : List (String × α)) (k k2 : String)
    (f : α → α) : (lookupA (updateA m k f) k2).isSome = (lookupA m k2).isSome := by
  by_cases h : k2 = k
  · subst h
    rw [lookupA_updateA_self]
    cases lookupA m k2 <;> rfl
  · rw [lookupA_updateA_ne m k k2 f h]

/-! ## C3 — audit-log write failures abort validate_code -/

/-- C3: contrary to the claim, a failing audit-log write is not swallowed:
with the audit logger enabled, `validate_code` propagates any write error via
the question-mark operator, so the security-validation result is lost and the
pipeline aborts. -/
theorem validate_code_audit_failure_aborts (e code user_id : String) :
    validate_code true (.error e) code user_id = .error e := rfl

/-! ## C5 — enforcement check order and strict thresholds -/

theorem check_rate_limit_error_form (cfg : RateLimitConfig)
    (buckets : List (String × TokenBucket)) (key : String) (now : Rat)
    (e : EnforcementError) (h : (check_rate_limit cfg buckets key now).2 = .error e) :
    e = .RateLimitExceeded key := by
  unfold check_rate_limit at h
  split at h
  all_goals dsimp only at h
  all_goals split at h
  all_goals simp_all

theorem check_circuit_error_form (cfg : CircuitBreakerConfig)
    (circuits : List (String × CircuitState)) (key : String) (now : Nat)
    (e : EnforcementError) (h : (check_circuit cfg circuits key now).2 = .error e) :
    e = .CircuitBreakerOpen key := by
  unfold check_circuit at h
  repeat' split at h
  all_goals simp_all

/-- C5: `enforce_request` applies timeout, token, user-scoped rate-limit,
tenant-scoped circuit-breaker and resource checks in that order, returning the
first failing check's error; every threshold is strict, so a request exactly
at the duration, token, memory, cpu, bandwidth and storage ceilings passes
while one past a ceiling fails with that check's specific error. -/
theorem enforce_request_order_and_boundaries (cfg : EnforcementConfig)
    (st : EnforcementState) (now_s : Rat) (now : Nat) (request : ExecuteTaskRequest) :
    (request.estimated_duration > cfg.timeout_config.max_duration →
      (enforce_request cfg st now_s now request).2 =
        .error (.TimeoutExceeded request.estimated_duration)) ∧
    (request.estimated_duration ≤ cfg.timeout_config.max_duration →
      request.estimated_tokens > cfg.token_validator_config.max_tokens →
      (enforce_request cfg st now_s now request).2 =
        .error (.TokenLimitExceeded request.estimated_tokens
          cfg.token_validator_config.max_tokens)) ∧
    (∀ e, request.estimated_duration ≤ cfg.timeout_config.max_duration →
      request.estimated_tokens ≤ cfg.token_validator_config.max_tokens →
      (check_rate_limit cfg.rate_limit_config st.buckets
        ("user:" ++ request.user_id) now_s).2 = .error e →
      (enforce_request cfg st now_s now request).2 = .error e ∧
        e = .RateLimitExceeded ("user:" ++ request.user_id)) ∧
    (∀ e, request.estimated_duration ≤ cfg.timeout_config.max_duration →
      request.estimated_tokens ≤ cfg.token_validator_config.max_tokens →
      (check_rate_limit cfg.rate_limit_config st.buckets
        ("user:" ++ request.user_id) now_s).2 = .ok () →
      (check_circuit cfg.circuit_breaker_config st.circuits
        ("tenant:" ++ request.tenant_id) now).2 = .error e →
      (enforce_request cfg st now_s now request).2 = .error e ∧
        e = .CircuitBreakerOpen ("tenant:" ++ request.tenant_id)) ∧
    (request.estimated_duration ≤ cfg.timeout_config.max_duration →
      request.estimated_tokens ≤ cfg.token_validator_config.max_tokens →
      (check_rate_limit cfg.rate_limit_config st.buckets
        ("user:" ++ request.user_id) now_s).2 = .ok () →
      (check_circuit cfg.circuit_breaker_config st.circuits
        ("tenant:" ++ request.tenant_id) now).2 = .ok () →
      (enforce_request cfg st now_s now request).2 =
        validate_resources request.resource_requirements) ∧
    (request.resource_requirements.memory_mb ≤ 2048 →
      request.resource_requirements.cpu_cores ≤ 4 →
      request.resource_requirements.network_bandwidth_mbps ≤ 100 →
      request.resource_requirements.storage_mb ≤ 1024 →
      validate_resources request.resource_requirements = .ok ()) ∧
    (request.resource_requirements.memory_mb > 2048 →
      validate_resources request.resource_requirements =
        .error (.ResourceLimitExceeded
          ("memory: " ++ toString request.resource_requirements.memory_mb ++
            "MB > 2048MB"))) := by
  refine ⟨?_, ?_, ?_, ?_, ?_, ?_, ?_⟩
  · intro h
    simp [enforce_request, check_timeout, h]
  · intro h1 h2
    have hns : ¬(request.estimated_duration > cfg.timeout_config.max_duration) :=
      not_lt.mpr h1
    simp [enforce_request, check_timeout, validate_tokens, hns, h2]
  · intro e h1 h2 hr
    have hns : ¬(request.estimated_duration > cfg.timeout_config.max_duration) :=
      not_lt.mpr h1
    have hnt : ¬(request.estimated_tokens > cfg.token_validator_config.max_tokens) :=
      not_lt.mpr h2
    refine ⟨?_, check_rate_limit_error_form _ _ _ _ _ hr⟩
    rcases hcr : check_rate_limit cfg.rate_limit_config st.buckets
        ("user:" ++ request.user_id) now_s with ⟨b, r⟩
    rw [hcr] at hr
    simp only at hr
    simp [enforce_request, check_timeout, validate_tokens, hns, hnt, hcr, hr]
  · intro e h1 h2 hr hc
    have hns : ¬(request.estimated_duration > cfg.timeout_config.max_duration) :=
      not_lt.mpr h1
    have hnt : ¬(request.estimated_tokens > cfg.token_validator_config.max_tokens) :=
      not_lt.mpr h2
    refine ⟨?_, check_circuit_error_form _ _ _ _ _ hc⟩
    rcases hcr : check_rate_limit cfg.rate_limit_config st.buckets
        ("user:" ++ request.user_id) now_s with ⟨b, r⟩
    rw [hcr] at hr
    simp only at hr
    rcases hcc : check_circuit cfg.circuit_breaker_config st.circuits
        ("tenant:" ++ request.tenant_id) now with ⟨c, r2⟩
    rw [hcc] at hc
    simp only at hc
    simp [enforce_request, check_timeout, validate_tokens, hns, hnt, hcr, hr, hcc, hc]
  · intro h1 h2 hr hc
    have hns : ¬(request.estimated_duration > cfg.timeout_config.max_duration) :=
      not_lt.mpr h1
    have hnt : ¬(request.estimated_tokens > cfg.token_validator_config.max_tokens) :=
      not_lt.mpr h2
    rcases hcr : check_rate_limit cfg.rate_limit_config st.buckets
        ("user:" ++ request.user_id) now_s with ⟨b, r⟩
    rw [hcr] at hr
    simp only at hr
    rcases hcc : check_circuit cfg.circuit_breaker_config st.circuits
        ("tenant:" ++ request.tenant_id) now with ⟨c, r2⟩
    rw [hcc] at hc
    simp only at hc
    simp [enforce_request, check_timeout, validate_tokens, hns, hnt, hcr, hr, hcc, hc]
    cases hv : validate_resources request.resource_requirements <;> simp [hv]
  · intro m1 m2 m3 m4
    have hm1 : ¬(request.resource_requirements.memory_mb > 2048) := not_lt.mpr m1
    have hm2 : ¬(request.resource_requirements.cpu_cores > 4) := not_lt.mpr m2
    have hm3 : ¬(request.resource_requirements.network_bandwidth_mbps > 100) :=
      not_lt.mpr m3
    have hm4 : ¬(request.resource_requirements.storage_mb > 1024) := not_lt.mpr m4
    simp [validate_resources, hm1, hm2, hm3, hm4]
  · intro h
    simp [validate_resources, h]

/-- C5 witness: under the default configuration with a fresh gateway state, a
request exactly on every threshold passes the whole preflight. -/
theorem enforce_request_order_and_boundaries_witness :
    (enforce_request exEnforcementCfg exFreshEnforcement 0 0 exBoundaryRequest).2 =
      .ok () := by
  have h := enforce_request_order_and_boundaries exEnforcementCfg exFreshEnforcement
    0 0 exBoundaryRequest
  rw [h.2.2.2.2.1 (by decide) (by decide)
    (by norm_num [check_rate_limit, lookupA, exEnforcementCfg, exFreshEnforcement])
    (by simp [check_circuit, lookupA, exFreshEnforcement])]
  exact h.2.2.2.2.2.1 (by decide) (by decide) (by decide) (by decide)

/-! ## C9 — every risk-score addition carries a violation -/

theorem analyze_code_coupling (code : String) :
    (analyze_code code).violations = [] → (analyze_code code).risk_score = 0 := by
  unfold analyze_code
  intro h
  simp only [List.append_eq_nil, List.map_eq_nil_iff] at h
  obtain ⟨⟨h1, h2⟩, h3⟩ := h
  simp only [h1, h2, h3]
  rfl

theorem validation_core_coupling (code user_id : String) :
    ((validation_core code user_id).violations = [] →
       (validation_core code user_id).risk_score = 0) ∧
    ((validation_core code user_id).is_safe = true ↔
       (validation_core code user_id).violations = []) := by
  by_cases hpol : (evaluate_code_policy code user_id).allowed
  case pos =>
    have hv : (validation_core code user_id).violations = (analyze_code code).violations := by
      simp [validation_core, hpol]
    have hr : (validation_core code user_id).risk_score = (analyze_code code).risk_score := by
      simp [validation_core, hpol]
    have hs : (validation_core code user_id).is_safe =
        ((analyze_code code).violations.isEmpty &&
          decide ((analyze_code code).risk_score < 70)) := by
      simp [validation_core, hpol]
    constructor
    · intro h
      rw [hr]
      exact analyze_code_coupling code (hv ▸ h)
    · rw [hs, hv]
      constructor
      · intro h
        exact List.isEmpty_iff.mp ((Bool.and_eq_true _ _).mp h).1
      · intro h
        have h0 : (analyze_code code).risk_score = 0 := analyze_code_coupling code h
        simp [h, h0]
  case neg =>
    have hv : (validation_core code user_id).violations =
        (analyze_code code).violations ++
          ["Policy violation: " ++ (evaluate_code_policy code user_id).reason] := by
      simp [validation_core, hpol]
    have hne : (validation_core code user_id).violations ≠ [] := by
      rw [hv]; simp
    have hs : (validation_core code user_id).is_safe = false := by
      simp [validation_core, hpol]
    refine ⟨fun h => absurd h hne, ?_⟩
    rw [hs]
    exact ⟨fun h => absurd h (by simp), fun h => absurd h hne⟩

/-- C9: whenever `validate_code` returns a result, an empty violations list
forces a zero risk score, and `is_safe` is equivalent to the violations list
being empty — the `risk_score < 70` conjunct never decides the outcome on its
own, because every score addition also appends a violation. -/
theorem risk_score_violations_coupling (audit_enabled : Bool)
    (audit_write : Except String Unit) (code user_id : String)
    (r : SecurityValidationResult)
    (h : validate_code audit_enabled audit_write code user_id = .ok r) :
    (r.violations = [] → r.risk_score = 0) ∧ (r.is_safe = true ↔ r.violations = []) := by
  have hr : validation_core code user_id = r := by
    cases audit_enabled with
    | false => simpa [validate_code] using h
    | true =>
        cases audit_write with
        | error e => exact absurd h (by simp [validate_code])
        | ok u => simpa [validate_code] using h
  rw [← hr]
  exact validation_core_coupling code user_id

/-- C9 witness: the coupling instantiated on a concrete clean program with the
audit logger enabled and a successful write. -/
theorem risk_score_violations_coupling_witness :
    ((validation_core "print(1)" "u1").violations = [] →
       (validation_core "print(1)" "u1").risk_score = 0) ∧
    ((validation_core "print(1)" "u1").is_safe = true ↔
       (validation_core "print(1)" "u1").violations = []) :=
  risk_score_violations_coupling true (.ok ()) "print(1)" "u1"
    (validation_core "print(1)" "u1") rfl

/-! ## C2 — record_failure on a HalfOpen circuit -/

/-- C2 counterexample: with the default failure threshold 5, `record_failure`
applied to a HalfOpen circuit whose consecutive-failure count is zero leaves
the circuit HalfOpen — it does not transition to Open as the claim states. -/
theorem record_failure_halfopen_counterexample :
    ((lookupA (record_failure exCircuitCfg [("k", exHalfOpenCircuit)] "k" 7) "k").map
        CircuitState.state = some CircuitStatus.HalfOpen) ∧
    ((lookupA (record_failure exCircuitCfg [("k", exHalfOpenCircuit)] "k" 7) "k").map
        CircuitState.state ≠ some CircuitStatus.Open) := by
  exact ⟨rfl, by decide⟩

/-- C2 amended: `record_failure` stamps `last_failure` with now, zeroes the
success counter, increments the failure counter, and transitions the circuit
to Open exactly when the incremented counter reaches the failure threshold —
a HalfOpen circuit below the threshold stays HalfOpen; and every public
circuit-breaker operation moves each key's status only along the section 4.3
edges (or leaves it in place). -/
theorem record_failure_amended_and_circuit_edges (cfg : CircuitBreakerConfig)
    (circuits : List (String × CircuitState)) (key : String) (now : Nat) :
    (lookupA (record_failure cfg circuits key now) key =
      some { state :=
               if ((lookupA circuits key).getD freshCircuit).failure_count + 1 ≥
                   cfg.failure_threshold then .Open
               else ((lookupA circuits key).getD freshCircuit).state,
             failure_count := ((lookupA circuits key).getD freshCircuit).failure_count + 1,
             success_count := 0,
             last_failure := some now }) ∧
    (∀ k2, CircuitEdgeOrSame (circuit_status_at circuits k2)
        (circuit_status_at (record_failure cfg circuits key now) k2)) ∧
    (∀ k2, CircuitEdgeOrSame (circuit_status_at circuits k2)
        (circuit_status_at (record_success cfg circuits key) k2)) ∧
    (∀ k2, CircuitEdgeOrSame (circuit_status_at circuits k2)
        (circuit_status_at (check_circuit cfg circuits key now).1 k2)) := by
  refine ⟨?_, ?_, ?_, ?_⟩
  · by_cases hth :
      ((lookupA circuits key).getD freshCircuit).failure_count + 1 ≥ cfg.failure_threshold
    · simp [record_failure, lookupA_insertA_self, hth]
    · simp [record_failure, lookupA_insertA_self, hth]
  · intro k2
    by_cases hk : k2 = key
    · subst hk
      unfold circuit_status_at record_failure
      rw [lookupA_insertA_self]
      by_cases hth :
        ((lookupA circuits k2).getD freshCircuit).failure_count + 1 ≥ cfg.failure_threshold
      · simp only [hth, if_true, Option.getD_some]
        cases h : ((lookupA circuits k2).getD freshCircuit).state <;>
          simp [CircuitEdgeOrSame, h]
      · simp [hth, CircuitEdgeOrSame]
    · unfold circuit_status_at record_failure
      rw [lookupA_insertA_ne _ _ _ _ hk]
      exact Or.inl rfl
  · intro k2
    by_cases hk : k2 = key
    · subst hk
      unfold circuit_status_at record_success
      rw [lookupA_insertA_self]
      simp only [Option.getD_some]
      split
      next h =>
        have hho := beq_iff_eq.mp ((Bool.and_eq_true _ _).mp h).1
        exact Or.inr (Or.inr (Or.inr (Or.inl ⟨hho, rfl⟩)))
      next h => exact Or.inl rfl
    · unfold circuit_status_at record_success
      rw [lookupA_insertA_ne _ _ _ _ hk]
      exact Or.inl rfl
  · intro k2
    unfold check_circuit
    cases hc : lookupA circuits key with
    | none => exact Or.inl rfl
    | some c =>
        by_cases hopen : c.state = .Open
        · simp only [hopen, beq_self_eq_true, if_true]
          cases hlf : c.last_failure with
          | none => exact Or.inl rfl
          | some lf =>
              by_cases ht : now - lf > cfg.timeout
              · simp only [ht, if_true]
                by_cases hk : k2 = key
                · subst hk
                  unfold circuit_status_at transition_to_half_open
                  rw [lookupA_updateA_self, hc]
                  exact Or.inr (Or.inr (Or.inl ⟨by simp [hc, hopen], rfl⟩))
                · unfold circuit_status_at transition_to_half_open
                  rw [lookupA_updateA_ne _ _ _ _ hk]
                  exact Or.inl rfl
              · simp only [ht, if_false]
                exact Or.inl rfl
        · have : (c.state == CircuitStatus.Open) = false := by
            simp [beq_iff_eq, hopen]
          simp only [this, Bool.false_eq_true, if_false]
          exact Or.inl rfl

/-! ## C6 — registration ceilings mutate partially -/

/-- C6 counterexample: with a one-state ceiling, `add_states` on a two-state
list fails with the states error yet leaves the first state registered — the
state map is not unchanged. -/
theorem add_states_partial_mutation_counterexample :
    ((add_states exTinyCfg exEmptyMachine [exStateOne, exStateTwo]).2 =
      .error "Maximum number of states exceeded") ∧
    ((add_states exTinyCfg exEmptyMachine [exStateOne, exStateTwo]).1.states =
      [("s1", exStateOne)]) ∧
    ((add_states exTinyCfg exEmptyMachine [exStateOne, exStateTwo]).1.states ≠
      exEmptyMachine.states) := by
  refine ⟨rfl, rfl, by decide⟩

theorem add_states_loop_ok (maxS : Nat) (ss : List State) :
    ∀ m, (add_states_loop maxS m ss).2 = .ok () →
      (add_states_loop maxS m ss).1 =
        ss.foldl (fun acc s => insertA acc s.id s) m := by
  induction ss with
  | nil => intro m _; rfl
  | cons s rest ih =>
      intro m h
      by_cases hlen : m.length ≥ maxS
      · exact absurd h (by simp [add_states_loop, hlen])
      · simp only [add_states_loop, hlen, if_false] at h ⊢
        simpa [List.foldl_cons] using ih (insertA m s.id s) h

theorem add_states_loop_error (maxS : Nat) (ss : List State) :
    ∀ m e, (add_states_loop maxS m ss).2 = .error e →
      e = "Maximum number of states exceeded" ∧
      ∃ k, k < ss.length ∧
        (add_states_loop maxS m ss).1 =
          (ss.take k).foldl (fun acc s => insertA acc s.id s) m ∧
        maxS ≤ ((ss.take k).foldl (fun acc s => insertA acc s.id s) m).length := by
  induction ss with
  | nil => intro m e h; exact absurd h (by simp [add_states_loop])
  | cons s rest ih =>
      intro m e h
      by_cases hlen : m.length ≥ maxS
      · have he : e = "Maximum number of states exceeded" := by
          simp [add_states_loop, hlen] at h
          exact h.symm
        refine ⟨he, 0, by simp, by simp [add_states_loop, hlen], by simpa using hlen⟩
      · simp only [add_states_loop, hlen, if_false] at h
        obtain ⟨he, k, hk, h1, h2⟩ := ih (insertA m s.id s) e h
        refine ⟨he, k + 1, by simpa using Nat.succ_lt_succ hk, ?_, ?_⟩
        · simpa [add_states_loop, hlen, List.take_succ_cons, List.foldl_cons] using h1
        · simpa [List.take_succ_cons, List.foldl_cons] using h2

theorem add_transitions_loop_ok (maxT : Nat) (ts : List Transition) :
    ∀ tm, (add_transitions_loop maxT tm ts).2 = .ok () →
      (add_transitions_loop maxT tm ts).1 = ts.foldl pushTransition tm := by
  induction ts with
  | nil => intro tm _; rfl
  | cons t rest ih =>
      intro tm h
      by_cases hlen : totalTransitions tm ≥ maxT
      · exact absurd h (by simp [add_transitions_loop, hlen])
      · simp only [add_transitions_loop, hlen, if_false] at h ⊢
        simpa [List.foldl_cons] using ih (pushTransition tm t) h

theorem add_transitions_loop_error (maxT : Nat) (ts : List Transition) :
    ∀ tm e, (add_transitions_loop maxT tm ts).2 = .error e →
      e = "Maximum number of transitions exceeded" ∧
      ∃ k, k < ts.length ∧
        (add_transitions_loop maxT tm ts).1 = (ts.take k).foldl pushTransition tm ∧
        maxT ≤ totalTransitions ((ts.take k).foldl pushTransition tm) := by
  induction ts with
  | nil => intro tm e h; exact absurd h (by simp [add_transitions_loop])
  | cons t rest ih =>
      intro tm e h
      by_cases hlen : totalTransitions tm ≥ maxT
      · have he : e = "Maximum number of transitions exceeded" := by
          simp [add_transitions_loop, hlen] at h
          exact h.symm
        refine ⟨he, 0, by simp, by simp [add_transitions_loop, hlen], by simpa using hlen⟩
      · simp only [add_transitions_loop, hlen, if_false] at h
        obtain ⟨he, k, hk, h1, h2⟩ := ih (pushTransition tm t) e h
        refine ⟨he, k + 1, by simpa using Nat.succ_lt_succ hk, ?_, ?_⟩
        · simpa [add_transitions_loop, hlen, List.take_succ_cons, List.foldl_cons] using h1
        · simpa [List.take_succ_cons, List.foldl_cons] using h2

/-- C6 amended: `add_states` and `add_transitions` enforce their ceilings with
distinct errors (`Maximum number of states exceeded` versus
`Maximum number of transitions exceeded`), but an overage is detected only as
the list is walked: a failing call keeps every element registered before the
ceiling check fired (partial mutation), while a successful call registers the
whole list. -/
theorem registration_ceiling_amended (cfg : FSMConfig) (sm : StateMachine)
    (ss : List State) (ts : List Transition) :
    ((add_states cfg sm ss).2 = .ok () →
      (add_states cfg sm ss).1.states =
        ss.foldl (fun acc s => insertA acc s.id s) sm.states) ∧
    (∀ e, (add_states cfg sm ss).2 = .error e →
      e = "Maximum number of states exceeded" ∧
      ∃ k, k < ss.length ∧
        (add_states cfg sm ss).1.states =
          (ss.take k).foldl (fun acc s => insertA acc s.id s) sm.states ∧
        cfg.max_states ≤
          ((ss.take k).foldl (fun acc s => insertA acc s.id s) sm.states).length) ∧
    ((add_transitions cfg sm ts).2 = .ok () →
      (add_transitions cfg sm ts).1.transitions = ts.foldl pushTransition sm.transitions) ∧
    (∀ e, (add_transitions cfg sm ts).2 = .error e →
      e = "Maximum number of transitions exceeded" ∧
      ∃ k, k < ts.length ∧
        (add_transitions cfg sm ts).1.transitions =
          (ts.take k).foldl pushTransition sm.transitions ∧
        cfg.max_transitions ≤
          totalTransitions ((ts.take k).foldl pushTransition sm.transitions)) := by
  refine ⟨?_, ?_, ?_, ?_⟩
  · intro h
    have := add_states_loop_ok cfg.max_states ss sm.states (by simpa [add_states] using h)
    simpa [add_states] using this
  · intro e h
    have := add_states_loop_error cfg.max_states ss sm.states e (by simpa [add_states] using h)
    simpa [add_states] using this
  · intro h
    have := add_transitions_loop_ok cfg.max_transitions ts sm.transitions
      (by simpa [add_transitions] using h)
    simpa [add_transitions] using this
  · intro e h
    have := add_transitions_loop_error cfg.max_transitions ts sm.transitions e
      (by simpa [add_transitions] using h)
    simpa [add_transitions] using this

/-- C6 amended witness: instantiating the amended theorem on the two-state
overflowing call shows the distinct error together with the one retained
state. -/
theorem registration_ceiling_amended_witness :
    "Maximum number of states exceeded" = "Maximum number of states exceeded" ∧
    ∃ k, k < ([exStateOne, exStateTwo] : List State).length ∧
      (add_states exTinyCfg exEmptyMachine [exStateOne, exStateTwo]).1.states =
        (([exStateOne, exStateTwo] : List State).take k).foldl
          (fun acc s => insertA acc s.id s) exEmptyMachine.states ∧
      exTinyCfg.max_states ≤
        ((([exStateOne, exStateTwo] : List State).take k).foldl
          (fun acc s => insertA acc s.id s) exEmptyMachine.states).length :=
  (registration_ceiling_amended exTinyCfg exEmptyMachine [exStateOne, exStateTwo] []).2.1
    "Maximum number of states exceeded" rfl

/-! ## C7 — tie-breaking between buckets ignores registration order -/

/-- C7 counterexample: two applicable transitions on event `"x"` with equal
priority, the wildcard one registered first; from state `"s"` the later
registered current-state transition `tB` fires, not the first registered
`tA`. -/
theorem first_match_tie_counterexample :
    ((fired_transition exTieMachine "s" (some exEventX)).map Transition.id = some "tB") ∧
    exTieWildcard.priority = exTieFromS.priority ∧
    evaluate_transition_condition exTieWildcard.condition (some exEventX) = true ∧
    evaluate_transition_condition exTieFromS.condition (some exEventX) = true ∧
    exTieWildcard.id ≠ exTieFromS.id := by
  refine ⟨rfl, rfl, rfl, rfl, by decide⟩

theorem find?_eq_head?_filter {α : Type} (p : α → Bool) (l : List α) :
    l.find? p = (l.filter p).head? := by
  induction l with
  | nil => rfl
  | cons a t ih =>
      by_cases h : p a
      · rw [List.find?_cons_of_pos _ h, List.filter_cons_of_pos h]
        rfl
      · rw [List.find?_cons_of_neg _ h, List.filter_cons_of_neg h, ih]

theorem mem_insertByPriority {z x : Transition} {s : List Transition} :
    z ∈ insertByPriority x s ↔ z = x ∨ z ∈ s := by
  induction s with
  | nil => simp [insertByPriority]
  | cons u us ih =>
      simp only [insertByPriority]
      by_cases h : u.priority > x.priority
      · rw [if_pos h, List.mem_cons, ih, List.mem_cons]
        tauto
      · rw [if_neg h]
        simp [List.mem_cons]

theorem insertByPriority_eq_cons (x : Transition) (s : List Transition)
    (h : ∀ u ∈ s.head?, ¬u.priority > x.priority) : insertByPriority x s = x :: s := by
  cases s with
  | nil => rfl
  | cons u us =>
      have := h u (by simp)
      simp [insertByPriority, this]

theorem pairwise_insertByPriority (x : Transition) (s : List Transition)
    (hs : List.Pairwise (fun a b => b.priority ≤ a.priority) s) :
    List.Pairwise (fun a b => b.priority ≤ a.priority) (insertByPriority x s) := by
  induction s with
  | nil => simp [insertByPriority]
  | cons u us ih =>
      rcases List.pairwise_cons.mp hs with ⟨hu, hus⟩
      simp only [insertByPriority]
      by_cases h : u.priority > x.priority
      · rw [if_pos h]
        refine List.pairwise_cons.mpr ⟨?_, ih hus⟩
        intro z hz
        rcases mem_insertByPriority.mp hz with hz1 | hz2
        · subst hz1; exact le_of_lt h
        · exact hu z hz2
      · rw [if_neg h]
        refine List.pairwise_cons.mpr ⟨?_, hs⟩
        intro z hz
        rcases List.mem_cons.mp hz with hz1 | hz2
        · subst hz1; exact not_lt.mp h
        · exact le_trans (hu z hz2) (not_lt.mp h)

theorem pairwise_sortByPriorityDesc (l : List Transition) :
    List.Pairwise (fun a b => b.priority ≤ a.priority) (sortByPriorityDesc l) := by
  induction l with
  | nil => simp [sortByPriorityDesc]
  | cons t ts ih => exact pairwise_insertByPriority t (sortByPriorityDesc ts) ih

theorem filter_insertByPriority (p : Transition → Bool) (x : Transition)
    (s : List Transition) (hs : List.Pairwise (fun a b => b.priority ≤ a.priority) s) :
    (insertByPriority x s).filter p =
      if p x then insertByPriority x (s.filter p) else s.filter p := by
  induction s with
  | nil =>
      by_cases h : p x <;> simp [insertByPriority, List.filter_cons, h]
  | cons u us ih =>
      rcases List.pairwise_cons.mp hs with ⟨hu, hus⟩
      simp only [insertByPriority]
      by_cases h : u.priority > x.priority
      · rw [if_pos h]
        by_cases hpx : p x
        · rw [if_pos hpx]
          by_cases hpu : p u
          · calc (u :: insertByPriority x us).filter p
                = u :: (insertByPriority x us).filter p := List.filter_cons_of_pos hpu
              _ = u :: insertByPriority x (us.filter p) := by rw [ih hus, if_pos hpx]
              _ = insertByPriority x (u :: us.filter p) := by
                    simp only [insertByPriority]; rw [if_pos h]
              _ = insertByPriority x ((u :: us).filter p) := by
                    rw [List.filter_cons_of_pos hpu]
          · calc (u :: insertByPriority x us).filter p
                = (insertByPriority x us).filter p := List.filter_cons_of_neg hpu
              _ = insertByPriority x (us.filter p) := by rw [ih hus, if_pos hpx]
              _ = insertByPriority x ((u :: us).filter p) := by
                    rw [List.filter_cons_of_neg hpu]
        · rw [if_neg hpx]
          by_cases hpu : p u
          · calc (u :: insertByPriority x us).filter p
                = u :: (insertByPriority x us).filter p := List.filter_cons_of_pos hpu
              _ = u :: us.filter p := by rw [ih hus, if_neg hpx]
              _ = (u :: us).filter p := (List.filter_cons_of_pos hpu).symm
          · calc (u :: insertByPriority x us).filter p
                = (insertByPriority x us).filter p := List.filter_cons_of_neg hpu
              _ = us.filter p := by rw [ih hus, if_neg hpx]
              _ = (u :: us).filter p := (List.filter_cons_of_neg hpu).symm
      · rw [if_neg h]
        by_cases hpx : p x
        · rw [if_pos hpx]
          have hhead : ∀ v ∈ ((u :: us).filter p).head?, ¬v.priority > x.priority := by
            intro v hv
            have hvmem : v ∈ (u :: us).filter p := by
              cases hf : (u :: us).filter p with
              | nil => rw [hf] at hv; cases hv
              | cons w ws =>
                  rw [hf] at hv
                  simp only [List.head?_cons, Option.mem_def, Option.some.injEq] at hv
                  subst hv
                  exact List.mem_cons_self _ _
            have hmem : v ∈ u :: us := List.mem_of_mem_filter hvmem
            rcases List.mem_cons.mp hmem with h1 | h2
            · subst h1; exact h
            · intro hgt
              exact absurd (le_trans (hu v h2) (not_lt.mp h)) (not_le.mpr hgt)
          calc (x :: u :: us).filter p
              = x :: (u :: us).filter p := List.filter_cons_of_pos hpx
            _ = insertByPriority x ((u :: us).filter p) :=
                (insertByPriority_eq_cons _ _ hhead).symm
        · rw [if_neg hpx]
          exact List.filter_cons_of_neg hpx

theorem filter_sortByPriorityDesc (p : Transition → Bool) (l : List Transition) :
    (sortByPriorityDesc l).filter p = sortByPriorityDesc (l.filter p) := by
  induction l with
  | nil => rfl
  | cons t ts ih =>
      simp only [sortByPriorityDesc]
      rw [filter_insertByPriority p t (sortByPriorityDesc ts) (pairwise_sortByPriorityDesc ts)]
      by_cases h : p t
      · rw [if_pos h, List.filter_cons_of_pos h]
        simp only [sortByPriorityDesc]
        rw [ih]
      · rw [if_neg h, List.filter_cons_of_neg h, ih]

theorem head?_insertByPriority (x : Transition) (s : List Transition) :
    (insertByPriority x s).head? =
      match s with
      | [] => some x
      | u :: _ => if u.priority > x.priority then some u else some x := by
  cases s with
  | nil => rfl
  | cons u us =>
      simp only [insertByPriority]
      by_cases h : u.priority > x.priority
      · rw [if_pos h, if_pos h]; rfl
      · rw [if_neg h, if_neg h]; rfl

theorem head?_sortByPriorityDesc_eq_firstMax (m : List Transition) :
    (sortByPriorityDesc m).head? = firstMaxPriority m := by
  induction m with
  | nil => rfl
  | cons t ts ih =>
      simp only [sortByPriorityDesc, firstMaxPriority]
      rw [head?_insertByPriority]
      cases hs : sortByPriorityDesc ts with
      | nil =>
          rw [hs] at ih
          simp only [List.head?_nil] at ih
          rw [← ih]
      | cons u rest =>
          rw [hs] at ih
          simp only [List.head?_cons] at ih
          rw [← ih]

theorem firstMaxPriority_eq_none_iff (m : List Transition) :
    firstMaxPriority m = none ↔ m = [] := by
  cases m with
  | nil => simp [firstMaxPriority]
  | cons t ts =>
      simp only [firstMaxPriority]
      cases firstMaxPriority ts with
      | none => simp
      | some u => by_cases h : u.priority > t.priority <;> simp [h]

theorem firstMaxPriority_mem (m : List Transition) :
    ∀ t, firstMaxPriority m = some t → t ∈ m := by
  induction m with
  | nil => intro t h; cases h
  | cons a ts ih =>
      intro t h
      cases hf : firstMaxPriority ts with
      | none =>
          simp only [firstMaxPriority, hf, Option.some.injEq] at h
          subst h
          exact List.mem_cons_self _ _
      | some u =>
          simp only [firstMaxPriority, hf] at h
          by_cases hp : u.priority > a.priority
          · rw [if_pos hp] at h
            simp only [Option.some.injEq] at h
            subst h
            exact List.mem_cons_of_mem _ (ih _ hf)
          · rw [if_neg hp] at h
            simp only [Option.some.injEq] at h
            subst h
            exact List.mem_cons_self _ _

theorem firstMaxPriority_le (m : List Transition) :
    ∀ t, firstMaxPriority m = some t → ∀ u ∈ m, u.priority ≤ t.priority := by
  induction m with
  | nil => intro t h; cases h
  | cons a ts ih =>
      intro t h w hw
      cases hf : firstMaxPriority ts with
      | none =>
          have hts : ts = [] := (firstMaxPriority_eq_none_iff ts).mp hf
          subst hts
          simp only [firstMaxPriority, Option.some.injEq] at h
          subst h
          rcases List.mem_cons.mp hw with h1 | h1
          · subst h1; exact le_refl _
          · cases h1
      | some u =>
          simp only [firstMaxPriority, hf] at h
          by_cases hp : u.priority > a.priority
          · rw [if_pos hp] at h
            simp only [Option.some.injEq] at h
            subst h
            rcases List.mem_cons.mp hw with h1 | h1
            · subst h1; exact le_of_lt hp
            · exact ih _ hf w h1
          · rw [if_neg hp] at h
            simp only [Option.some.injEq] at h
            subst h
            rcases List.mem_cons.mp hw with h1 | h1
            · subst h1; exact le_refl _
            · exact le_trans (ih _ hf w h1) (not_lt.mp hp)

theorem firstMaxPriority_first (m : List Transition) :
    ∀ t, firstMaxPriority m = some t →
      m.find? (fun u => decide (t.priority ≤ u.priority)) = some t := by
  induction m with
  | nil => intro t h; cases h
  | cons a ts ih =>
      intro t h
      cases hf : firstMaxPriority ts with
      | none =>
          have hts : ts = [] := (firstMaxPriority_eq_none_iff ts).mp hf
          subst hts
          simp only [firstMaxPriority, Option.some.injEq] at h
          subst h
          simp [List.find?_cons]
      | some u =>
          simp only [firstMaxPriority, hf] at h
          by_cases hp : u.priority > a.priority
          · rw [if_pos hp] at h
            simp only [Option.some.injEq] at h
            subst h
            have hnle : ¬u.priority ≤ a.priority := not_le.mpr hp
            rw [List.find?_cons]
            simp only [hnle, decide_eq_true_eq, if_false]
            exact ih _ hf
          · rw [if_neg hp] at h
            simp only [Option.some.injEq] at h
            subst h
            simp [List.find?_cons]

theorem execute_action_core (m : List (String × StateMachineInstance)) (i : String)
    (a : Action) (k : String) :
    (lookupA (execute_action m i a) k).map instance_core =
      (lookupA m k).map instance_core := by
  cases a with
  | SetVariable key value =>
      by_cases hk : k = i
      · subst hk
        rw [execute_action, lookupA_updateA_self]
        cases lookupA m k <;> simp [instance_core]
      · rw [execute_action, lookupA_updateA_ne _ _ _ _ hk]
  | Log msg => rfl
  | CallFunction name args => rfl
  | SendEvent event_type payload => rfl
  | UpdateMetrics name value => rfl
  | Custom handler params => rfl

theorem run_actions_core (acts : List Action) :
    ∀ (m : List (String × StateMachineInstance)) (i k : String),
      (lookupA (run_actions m i acts) k).map instance_core =
        (lookupA m k).map instance_core := by
  induction acts with
  | nil => intro m i k; rfl
  | cons a rest ih =>
      intro m i k
      have hstep : run_actions m i (a :: rest) = run_actions (execute_action m i a) i rest :=
        rfl
      rw [hstep, ih, execute_action_core]

theorem run_actions_count (acts : List Action) (m : List (String × StateMachineInstance))
    (i k : String) :
    (lookupA (run_actions m i acts) k).map StateMachineInstance.transition_count =
      (lookupA m k).map StateMachineInstance.transition_count := by
  have hc := run_actions_core acts m i k
  cases h1 : lookupA (run_actions m i acts) k <;> cases h2 : lookupA m k <;>
    rw [h1, h2] at hc <;> simp_all [instance_core]

theorem run_actions_isSome (acts : List Action) (m : List (String × StateMachineInstance))
    (i k : String) :
    (lookupA (run_actions m i acts) k).isSome = (lookupA m k).isSome := by
  have hc := run_actions_core acts m i k
  cases h1 : lookupA (run_actions m i acts) k <;> cases h2 : lookupA m k <;>
    rw [h1, h2] at hc <;> simp_all

theorem execute_transition_count (sm : StateMachine) (instance_id : String)
    (t : Transition) (now : Nat) (inst : StateMachineInstance)
    (h : lookupA sm.active_instances instance_id = some inst) :
    (lookupA (execute_transition sm instance_id t now).1.active_instances
        instance_id).map StateMachineInstance.transition_count =
      some (inst.transition_count + 1) := by
  unfold execute_transition
  dsimp only
  rw [run_actions_count, lookupA_updateA_self]
  have hm2 : (lookupA (run_actions (run_actions sm.active_instances instance_id
        (state_exit_actions sm.states t.from_state)) instance_id t.actions)
        instance_id).map StateMachineInstance.transition_count =
      some inst.transition_count := by
    rw [run_actions_count, run_actions_count, h]
    rfl
  cases hx : lookupA (run_actions (run_actions sm.active_instances instance_id
      (state_exit_actions sm.states t.from_state)) instance_id t.actions) instance_id with
  | none => rw [hx] at hm2; cases hm2
  | some x =>
      rw [hx] at hm2
      simp only [Option.map_some', Option.some.injEq] at hm2
      simp only [Option.map_some', Option.some.injEq]
      cases hts : lookupA sm.states t.to_state with
      | none => simp [hm2]
      | some s =>
          dsimp only
          split
          · simp [hm2]
          · split <;> simp [hm2]

/-- C7 amended: transition firing is first-match over the candidate list made
of the current state's bucket followed by the wildcard bucket, each in
registration order, stably sorted by priority descending.  The fired
transition is the first candidate attaining the maximal priority among those
whose condition holds; when no condition holds nothing fires; and one trigger
increments the instance's transition counter by at most one (exactly one when
something fires).  Ties between the two buckets therefore resolve to the
current-state bucket, not to global registration order. -/
theorem fired_transition_first_match_amended (sm : StateMachine)
    (current_state : String) (event : Option Event) (instance_id : String) (now : Nat) :
    (fired_transition sm current_state event =
      firstMaxPriority ((candidate_transitions sm.transitions current_state).filter
        (fun t => evaluate_transition_condition t.condition event))) ∧
    (fired_transition sm current_state event = none ↔
      (candidate_transitions sm.transitions current_state).filter
        (fun t => evaluate_transition_condition t.condition event) = []) ∧
    (∀ t, fired_transition sm current_state event = some t →
      t ∈ (candidate_transitions sm.transitions current_state).filter
            (fun t => evaluate_transition_condition t.condition event) ∧
      (∀ u ∈ (candidate_transitions sm.transitions current_state).filter
            (fun t => evaluate_transition_condition t.condition event),
        u.priority ≤ t.priority) ∧
      ((candidate_transitions sm.transitions current_state).filter
            (fun t => evaluate_transition_condition t.condition event)).find?
          (fun u => decide (t.priority ≤ u.priority)) = some t) ∧
    (∀ inst, lookupA sm.active_instances instance_id = some inst →
      (lookupA (check_transitions sm instance_id current_state event now).1.active_instances
          instance_id).map StateMachineInstance.transition_count =
        some (inst.transition_count +
          (if (fired_transition sm current_state event).isSome then 1 else 0))) := by
  have hkey : fired_transition sm current_state event =
      firstMaxPriority ((candidate_transitions sm.transitions current_state).filter
        (fun t => evaluate_transition_condition t.condition event)) := by
    unfold fired_transition
    rw [find?_eq_head?_filter, filter_sortByPriorityDesc,
      head?_sortByPriorityDesc_eq_firstMax]
  refine ⟨hkey, ?_, ?_, ?_⟩
  · rw [hkey]
    exact firstMaxPriority_eq_none_iff _
  · intro t ht
    rw [hkey] at ht
    exact ⟨firstMaxPriority_mem _ _ ht, firstMaxPriority_le _ _ ht, firstMaxPriority_first _ _ ht⟩
  · intro inst hinst
    unfold check_transitions
    cases hf : fired_transition sm current_state event with
    | none => simp [hf, hinst]
    | some t =>
        simp only [hf, Option.isSome_some, if_true]
        exact execute_transition_count sm instance_id t now inst hinst

/-- C7 amended witness: on the tied pair, the fired transition is the
current-state one, which indeed holds its condition, attains the maximal
priority among condition holders, and is the first holder at that priority
in candidate order. -/
theorem fired_transition_first_match_amended_witness :
    exTieFromS ∈ (candidate_transitions exTieMachine.transitions "s").filter
        (fun t => evaluate_transition_condition t.condition (some exEventX)) ∧
    (∀ u ∈ (candidate_transitions exTieMachine.transitions "s").filter
        (fun t => evaluate_transition_condition t.condition (some exEventX)),
      u.priority ≤ exTieFromS.priority) ∧
    ((candidate_transitions exTieMachine.transitions "s").filter
        (fun t => evaluate_transition_condition t.condition (some exEventX))).find?
      (fun u => decide (exTieFromS.priority ≤ u.priority)) = some exTieFromS :=
  (fired_transition_first_match_amended exTieMachine "s" (some exEventX) "i" 0).2.2.1
    exTieFromS rfl

/-! ## C4 — exit actions of wildcard transitions -/

/-- C4: evaluating `execute_transition` (via `trigger_event`) at the failing
input: the instance sits in state `"s"` whose exit-action list is nonempty,
and a wildcard transition fires; the executed trace holds the transition's
action and the target's entry action but not the current state's exit action,
because the source passes `transition.from_state` (here `"*"`) to the exit
hook. -/
theorem execute_transition_wildcard_exit_actions_eval :
    (transition_trace (trigger_event exC4Machine "i" exErrorEvent 5) =
      some [Action.Log "wildcard fired", Action.Log "entered failed"]) ∧
    (Action.Log "leaving s" ∉ [Action.Log "wildcard fired", Action.Log "entered failed"]) ∧
    (state_exit_actions exC4Machine.states "s" = [Action.Log "leaving s"]) := by
  refine ⟨rfl, by decide, rfl⟩

/-! ## C8 — terminal states still react to events -/

/-- C8 counterexample: an instance of the default graph that has entered the
Terminal state `"completed"` (status Completed) is moved by a subsequent
`"error"` event to `"failed"` with status Failed — its state and status do
change. -/
theorem terminal_state_event_counterexample :
    (instance_core_after
        (trigger_event (completedMachine exEmptyCtx 0 0 5) "i" exErrorEvent 9) "i" =
      some ("failed", InstanceStatus.Failed, 6)) ∧
    ("failed" ≠ "completed") ∧ (InstanceStatus.Failed ≠ InstanceStatus.Completed) := by
  refine ⟨rfl, by decide, by decide⟩

theorem fired_transition_completed (sm : StateMachine)
    (htm : sm.transitions = default_fsm.transitions) (e : Event) :
    fired_transition sm "completed" (some e) =
      if e.event_type == "error" then some any_to_failed_transition else none := by
  unfold fired_transition
  rw [htm]
  have hcand : candidate_transitions default_fsm.transitions "completed" =
      [any_to_failed_transition, timeout_to_failed_transition] := rfl
  have hsort : sortByPriorityDesc [any_to_failed_transition, timeout_to_failed_transition] =
      [any_to_failed_transition, timeout_to_failed_transition] := rfl
  rw [hcand, hsort]
  by_cases h : e.event_type = "error" <;>
    simp [List.find?_cons, evaluate_transition_condition, any_to_failed_transition,
      timeout_to_failed_transition, h]

/-- C8 amended: an instance of the default graph that has entered the Terminal
state `"completed"` (status Completed) still accepts events without panicking:
`trigger_event` always returns Ok on it, an event matching no wildcard
condition leaves its state, status and transition count unchanged, but an
`"error"` event fires the wildcard error transition and moves the instance to
`"failed"` with status Failed. -/
theorem terminal_state_events_amended (ctx : StateMachineContext) (c l n now : Nat)
    (event : Event) :
    (∃ pr, trigger_event (completedMachine ctx c l n) "i" event now = .ok pr) ∧
    (event.event_type ≠ "error" →
      instance_core_after (trigger_event (completedMachine ctx c l n) "i" event now) "i" =
        some ("completed", InstanceStatus.Completed, n)) ∧
    (event.event_type = "error" →
      instance_core_after (trigger_event (completedMachine ctx c l n) "i" event now) "i" =
        some ("failed", InstanceStatus.Failed, n + 1)) := by
  have hlook : lookupA (completedMachine ctx c l n).active_instances "i" =
      some (completedInstance ctx c l n) := by
    simp [completedMachine, lookupA]
  have hstep : trigger_event (completedMachine ctx c l n) "i" event now =
      .ok (check_transitions (completedWithEvent ctx c l n event)
        "i" "completed" (some event) now) := by
    unfold trigger_event
    rw [hlook]
    rfl
  have hfired := fired_transition_completed (completedWithEvent ctx c l n event) rfl event
  refine ⟨⟨_, hstep⟩, ?_, ?_⟩
  · intro hne
    have hbeq : (event.event_type == "error") = false := by
      simp [hne]
    rw [hstep]
    unfold instance_core_after
    dsimp only
    unfold check_transitions
    rw [hfired, hbeq]
    rfl
  · intro herr
    have hbeq : (event.event_type == "error") = true := by
      simp [herr]
    rw [hstep]
    unfold instance_core_after
    dsimp only
    unfold check_transitions
    rw [hfired, hbeq]
    rfl

/-- C8 amended witness: a success event on a completed instance of the default
graph is a no-op returning Ok, with state, status and counter unchanged. -/
theorem terminal_state_events_amended_witness :
    instance_core_after
        (trigger_event (completedMachine exEmptyCtx 0 0 5) "i" exSuccessEvent 9) "i" =
      some ("completed", InstanceStatus.Completed, 5) :=
  (terminal_state_events_amended exEmptyCtx 0 0 5 9 exSuccessEvent).2.1 (by decide)

/-! ## C1 — the live registry is cleaned up on every exit path -/

theorem monitoring_reg_isSome (cfg : EnforcementConfig) (env : EngineEnv)
    (st : EngineState) (request : AgentExecutionRequest) (k : String) :
    (lookupA (execute_with_monitoring cfg env st request).1.active_executions k).isSome =
      (lookupA st.active_executions k).isSome := by
  unfold execute_with_monitoring finish_execution
  dsimp only
  repeat' split
  all_goals simp [update_execution_status, lookupA_updateA_isSome]

/-- C1: `execute_agent_code` never leaves its execution id in the live
registry — the final state has no entry for it, whatever the pipeline outcome;
the id is present as soon as the `ActiveExecution` is inserted, and the
monitored pipeline body preserves registry membership on every path, so the id
stays registered during the whole run until the final removal. -/
theorem execute_agent_code_registry_invariant (cfg : EnforcementConfig)
    (env : EngineEnv) (st : EngineState) (request : AgentExecutionRequest) :
    (lookupA (execute_agent_code cfg env st request).1.active_executions
        env.execution_id = none) ∧
    ((lookupA (insertA st.active_executions env.execution_id
        (initial_active_execution env request)) env.execution_id).isSome = true) ∧
    (∀ st1 : EngineState, (lookupA st1.active_executions env.execution_id).isSome = true →
      (lookupA (execute_with_monitoring cfg env st1 request).1.active_executions
        env.execution_id).isSome = true) := by
  refine ⟨?_, ?_, ?_⟩
  · unfold execute_agent_code
    dsimp only
    rcases hm : execute_with_monitoring cfg env (engine_with_entry env st request)
        request with ⟨st2, res⟩
    exact lookupA_removeA_self _ _
  · rw [lookupA_insertA_self]
    rfl
  · intro st1 h
    rw [monitoring_reg_isSome]
    exact h

/-- C1 witness: with the id freshly inserted, the monitored pipeline body
keeps it registered. -/
theorem execute_agent_code_registry_invariant_witness :
    (lookupA (execute_with_monitoring exEnforcementCfg exEnv
        (engine_with_entry exEnv exEngineState exRequest)
        exRequest).1.active_executions "X").isSome = true :=
  (execute_agent_code_registry_invariant exEnforcementCfg exEnv exEngineState
      exRequest).2.2
    (engine_with_entry exEnv exEngineState exRequest)
    (by rfl)

/-! ## C10 — a WebAssembly request errors out and strands its FSM instance -/

theorem create_instance_isSome (sm : StateMachine) (fid : String)
    (ctx : StateMachineContext) (now : Nat) :
    (lookupA (create_instance sm fid ctx now).active_instances fid).isSome = true := by
  unfold create_instance
  dsimp only
  rw [run_actions_isSome, lookupA_insertA_self]
  rfl

theorem execute_transition_isSome (sm : StateMachine) (i : String) (t : Transition)
    (now : Nat) (k : String) :
    (lookupA (execute_transition sm i t now).1.active_instances k).isSome =
      (lookupA sm.active_instances k).isSome := by
  unfold execute_transition
  dsimp only
  rw [run_actions_isSome, lookupA_updateA_isSome, run_actions_isSome, run_actions_isSome]

theorem check_transitions_isSome (sm : StateMachine) (i cur : String)
    (ev : Option Event) (now : Nat) (k : String) :
    (lookupA (check_transitions sm i cur ev now).1.active_instances k).isSome =
      (lookupA sm.active_instances k).isSome := by
  unfold check_transitions
  cases hf : fired_transition sm cur ev with
  | some t =>
      dsimp only
      exact execute_transition_isSome sm i t now k
  | none => rfl

/-- C10: when security validation passes and the enforcement preflight
succeeds, a WebAssembly request makes `execute_agent_code` return the
not-implemented error; the orchestrator's registry entry is removed, but the
FSM instance created for the execution is neither completed nor removed — it
is still in the state machine's active-instances map. -/
theorem wasm_error_leaves_fsm_instance (cfg : EnforcementConfig) (env : EngineEnv)
    (st : EngineState) (request : AgentExecutionRequest) (r : SecurityValidationResult)
    (hlang : request.language = .WebAssembly)
    (hsec : validate_code env.audit_enabled env.audit_write request.code
        request.user_id = .ok r)
    (hsafe : r.is_safe = true)
    (henf : (enforce_request cfg st.enforcement env.now_s env.now
        (derived_enforcement_request env request)).2 = .ok ()) :
    ((execute_agent_code cfg env st request).2 =
      .error "WebAssembly execution not yet implemented") ∧
    (lookupA (execute_agent_code cfg env st request).1.active_executions
        env.execution_id = none) ∧
    ((lookupA (execute_agent_code cfg env st request).1.fsm.active_instances
        env.fsm_instance_id).isSome = true) := by
  have hmon : ∃ stF : EngineState,
      execute_with_monitoring cfg env (engine_with_entry env st request) request =
        (stF, .error "WebAssembly execution not yet implemented") ∧
      (lookupA stF.fsm.active_instances env.fsm_instance_id).isSome = true := by
    unfold execute_with_monitoring engine_with_entry
    dsimp only
    rw [hsec]
    dsimp only
    rw [hsafe]
    simp only [Bool.not_true, Bool.false_eq_true, if_false]
    rcases henfp : enforce_request cfg st.enforcement env.now_s env.now
        (derived_enforcement_request env request) with ⟨enf1, eres⟩
    rw [henfp] at henf
    dsimp only at henf ⊢
    subst henf
    dsimp only
    have hins : (lookupA (create_instance st.fsm env.fsm_instance_id
        { vars := [("execution_id", env.execution_id), ("user_id", request.user_id),
                   ("language", request.language.debugStr)],
          events := [], execution_history := [], metadata := [] }
        env.now).active_instances env.fsm_instance_id).isSome = true :=
      create_instance_isSome _ _ _ _
    obtain ⟨y, hy⟩ := Option.isSome_iff_exists.mp hins
    unfold trigger_event
    rw [hy]
    dsimp only
    rw [hlang]
    dsimp only
    rw [hlang] at hins
    refine ⟨_, rfl, ?_⟩
    dsimp only
    rw [check_transitions_isSome, lookupA_updateA_isSome]
    exact hins
  obtain ⟨stF, hF, hiso⟩ := hmon
  refine ⟨?_, ?_, ?_⟩
  · unfold execute_agent_code
    dsimp only
    rw [hF]
  · unfold execute_agent_code
    dsimp only
    rw [hF]
    exact lookupA_removeA_self _ _
  · unfold execute_agent_code
    dsimp only
    rw [hF]
    exact hiso

/-- C10 witness: the concrete WebAssembly request against the default
configuration, a fresh engine and a healthy audit log satisfies every
hypothesis, so its run errors out, clears the registry and strands the FSM
instance. -/
theorem wasm_error_leaves_fsm_instance_witness :
    ((execute_agent_code exEnforcementCfg exEnv exEngineState exRequestWasm).2 =
      .error "WebAssembly execution not yet implemented") ∧
    (lookupA (execute_agent_code exEnforcementCfg exEnv
        exEngineState exRequestWasm).1.active_executions "X" = none) ∧
    ((lookupA (execute_agent_code exEnforcementCfg exEnv
        exEngineState exRequestWasm).1.fsm.active_instances "F").isSome = true) :=
  wasm_error_leaves_fsm_instance exEnforcementCfg exEnv exEngineState exRequestWasm
    (validation_core "print(1)" "u1") rfl rfl (by decide)
    (by
      have hlen : ("print(1)" : String).length = 8 := rfl
      norm_num [enforce_request, check_timeout, validate_tokens, check_rate_limit,
        check_circuit, validate_resources, lookupA, derived_enforcement_request,
        estimate_tokens, exEnforcementCfg, exEngineState, exEnv, exRequestWasm,
        exRequest, hlen])

end MultiAgent
